import Mathlib

/-!
Shallow embedding of the physical-page cache in
src/memflow/src/mem/phys_mem/cache/page_cache.rs, together with theorems
settling the frozen claims about it.

Modelling conventions:
- Rust u64 addresses are Nat; Address::INVALID is the u64 sentinel 2^64 - 1.
- Rust operations that can panic (integer remainder or division by zero,
  Layout::from_size_align(..).unwrap() on a non power-of-two alignment,
  slice indexing) are embedded as Option-returning functions; none = panic.
- Page buffers are byte lists (Buf).  A slot either holds its buffer
  (some buf) or has lent it out (none), exactly mirroring the
  Box<[Option<&mut [u8]>]> page_refs field.
- The pluggable CacheValidator trait is a record of functions over an
  abstract state type V; the Clone bound on the validator is the clone
  field.  For concrete witnesses we instantiate V with List Bool
  (per-slot freshness flags, clone = identity as a derived Clone).
- The backing DMA (phys_read_raw_iter) is a parameter function taking the
  batch of (address, meta, length) triples and returning either a hard
  error or, per entry in order, whether the success callback was invoked.
  The byte contents the DMA writes into buffers are not modelled (no claim
  depends on them); on a hard error the model assumes no callbacks ran.
- Callback invocations and DMA calls are recorded in an event trace so
  that ordering claims can be stated; the drain marker records entry into
  the batch-drain block (line 271 of the source).
-/

namespace Memflow

/-- One page buffer, as its byte contents. -/
abbrev Buf := List Nat

/-- Address::INVALID, the all-ones u64 sentinel. -/
def INVALID : Nat := 2 ^ 64 - 1

/-- Modelled from the spec: page alignment of an address,
addr minus its remainder by the page size (equal to the bitwise
mask form for power-of-two page sizes).  The Address value type itself
is not under src/. -/
def as_page_aligned (a ps : Nat) : Nat := a - a % ps

/-- The CacheValidator trait (plus the Clone bound used by the clone impl),
as a record of operations over an abstract validator state V.
The trait itself is not under src/; operations are those named by the spec
and invoked by page_cache.rs. -/
structure Validator (V : Type) where
  is_slot_valid : V → Nat → Bool
  validate_slot : V → Nat → V
  invalidate_slot : V → Nat → V
  allocate_slots : V → Nat → V
  clone : V → V

/-- The PageCache struct.  cache_ptr and cache_layout carry no observable
state beyond the buffers themselves and are omitted; the pool bytes live
inside the page_refs entries (or in the lent-out handles). -/
structure PageCache (V : Type) where
  address : List Nat
  page_refs : List (Option Buf)
  address_once_validated : List Nat
  page_size : Nat
  page_type_mask : Nat
  validator : V
deriving DecidableEq

/-- The PageValidity enum. -/
inductive PageValidity where
  | Invalid
  | Validatable (buf : Buf)
  | ToBeValidated
  | Valid (buf : Buf)
deriving DecidableEq

/-- Numeric tag of a PageValidity constructor, for decidable statements. -/
def PageValidity.tag : PageValidity → Nat
  | .Invalid => 0
  | .Validatable _ => 1
  | .ToBeValidated => 2
  | .Valid _ => 3

/-- The CacheEntry struct. -/
structure CacheEntry where
  address : Nat
  validity : PageValidity
deriving DecidableEq

/-- page_index (source lines 85-88): index of the slot for an address.
Rust computes aligned / page_size % slot_count on u64; remainder by a zero
slot count (and division by a zero page size) panics, hence Option. -/
def page_index (c : PageCache V) (addr : Nat) : Option Nat :=
  if c.page_size = 0 ∨ c.address.length = 0 then none
  else some (as_page_aligned addr c.page_size / c.page_size % c.address.length)

/-- take_page (source lines 90-113).  The buffer is removed from the slot
unconditionally (std::mem::replace with None); the classification follows
the source branch for branch.  Returns the validity together with the
updated cache. -/
def take_page (vi : Validator V) (c : PageCache V) (addr : Nat)
    (skip_validator : Bool) : Option (PageValidity × PageCache V) :=
  match page_index c addr with
  | none => none
  | some i =>
    let bufopt := c.page_refs.getD i none
    let c' := { c with page_refs := c.page_refs.set i none }
    match bufopt with
    | some buf =>
      if c.address.getD i INVALID = as_page_aligned addr c.page_size
          ∧ (skip_validator = true ∨ vi.is_slot_valid c.validator i = true) then
        some (.Valid buf, c')
      else if c.address_once_validated.getD i INVALID
              = as_page_aligned addr c.page_size
          ∨ c.address_once_validated.getD i INVALID = INVALID then
        some (.Validatable buf, c')
      else
        some (.Invalid, c')
    | none =>
      if c.address_once_validated.getD i INVALID
          = as_page_aligned addr c.page_size then
        some (.ToBeValidated, c')
      else
        some (.Invalid, c')

/-- put_page (source lines 115-119): reinstall a buffer into its slot.
The debug_assert on an empty slot is release-mode: the write happens
unconditionally. -/
def put_page (c : PageCache V) (addr : Nat) (page : Buf) :
    Option (PageCache V) :=
  (page_index c addr).map fun i =>
    { c with page_refs := c.page_refs.set i (some page) }

/-- cached_page_mut (source lines 129-136). -/
def cached_page_mut (vi : Validator V) (c : PageCache V) (addr : Nat)
    (skip_validator : Bool) : Option (CacheEntry × PageCache V) :=
  (take_page vi c addr skip_validator).map fun r =>
    (⟨as_page_aligned addr c.page_size, r.1⟩, r.2)

/-- is_cached_page_type (source lines 125-127): bitflags contains, i.e.
mask.bits AND other.bits == other.bits (all flag bits of the page type are
set in the mask). -/
def is_cached_page_type (c : PageCache V) (page_type : Nat) : Bool :=
  c.page_type_mask &&& page_type == page_type

/-- mark_page_for_validation (source lines 147-151). -/
def mark_page_for_validation (c : PageCache V) (addr : Nat) :
    Option (PageCache V) :=
  (page_index c addr).map fun i =>
    { c with address_once_validated :=
        c.address_once_validated.set i (as_page_aligned addr c.page_size) }

/-- invalidate_page_raw (source lines 171-176). -/
def invalidate_page_raw (vi : Validator V) (c : PageCache V) (addr : Nat) :
    Option (PageCache V) :=
  (page_index c addr).map fun i =>
    { c with validator := vi.invalidate_slot c.validator i,
             address := c.address.set i INVALID,
             address_once_validated := c.address_once_validated.set i INVALID }

/-- cancel_page_validation (source lines 153-161).  Note the guard compares
address_once_validated against the raw addr parameter, not its
page-aligned value. -/
def cancel_page_validation (vi : Validator V) (c : PageCache V) (addr : Nat)
    (page_buf : Buf) : Option (PageCache V) :=
  (page_index c addr).bind fun i =>
    if c.address_once_validated.getD i INVALID = addr then
      (invalidate_page_raw vi c addr).bind fun c1 => put_page c1 addr page_buf
    else
      some c

/-- validate_page (source lines 163-169).  Note the address field is set to
the raw addr parameter, not its page-aligned value. -/
def validate_page (vi : Validator V) (c : PageCache V) (addr : Nat)
    (page_buf : Buf) : Option (PageCache V) :=
  (page_index c addr).bind fun i =>
    put_page
      { c with address := c.address.set i addr,
               address_once_validated :=
                 c.address_once_validated.set i INVALID,
               validator := vi.validate_slot c.validator i }
      addr page_buf

/-- invalidate_page (source lines 178-182). -/
def invalidate_page (vi : Validator V) (c : PageCache V) (addr page_type : Nat) :
    Option (PageCache V) :=
  if is_cached_page_type c page_type then invalidate_page_raw vi c addr
  else some c

/-- with_page_size (source lines 49-83).  size / page_size panics when the
page size is zero; Layout::from_size_align(..).unwrap() panics when the
page size is not a power of two.  The pool is zero-initialised, so every
slot starts with a resident all-zero page buffer. -/
def with_page_size (vi : Validator V) (page_size size page_type_mask : Nat)
    (validator : V) : Option (PageCache V) :=
  if page_size = 0 then none
  else if ¬ page_size &&& (page_size - 1) = 0 then none
  else
    let cache_entries := size / page_size
    some { address := List.replicate cache_entries INVALID,
           page_refs :=
             List.replicate cache_entries (some (List.replicate page_size 0)),
           address_once_validated := List.replicate cache_entries INVALID,
           page_size := page_size,
           page_type_mask := page_type_mask,
           validator := vi.allocate_slots validator cache_entries }

/-- The Clone impl (source lines 340-380): a fresh pool of identical
dimensions whose bytes are copied from the original pool, both address
arrays reset to INVALID, and the validator cloned via its own Clone impl.
The byte copy is modelled as equality of the per-slot buffer contents;
this is exact whenever every buffer is resident (clone takes a shared
reference, and loans only exist inside cached_read). -/
def clonePC (vi : Validator V) (c : PageCache V) : PageCache V :=
  { address := List.replicate c.address.length INVALID,
    page_refs := c.page_refs,
    address_once_validated := List.replicate c.address.length INVALID,
    page_size := c.page_size,
    page_type_mask := c.page_type_mask,
    validator := vi.clone c.validator }

/-- A PhysicalAddress: byte address, page-type flag set, page size. -/
structure PAddr where
  address : Nat
  page_type : Nat
  page_size : Nat
deriving DecidableEq

/-- One physical read request CTup3(PhysicalAddress, meta cursor, out
buffer); the out buffer is carried as its length (its bytes live on the
caller side and are delivered through the callbacks). -/
structure Req where
  pa : PAddr
  meta : Nat
  len : Nat
deriving DecidableEq

/-- Trace events emitted by the cached_read model.  Each constructor names
the source line whose effect it records. -/
inductive Ev where
  /-- cache-hit success callback with the copied bytes (line 245) -/
  | hitOut (meta : Nat) (data : Buf)
  /-- backing-DMA call draining wlist (line 279) -/
  | dmaW (inp : List (Nat × Nat × Nat))
  /-- success callback forwarded by the wlist DMA call (line 282) -/
  | wOut (meta : Nat)
  /-- failure callback forwarded by the wlist DMA call (line 281) -/
  | wFail (meta : Nat)
  /-- backing-DMA call draining wlistcache (line 303) -/
  | dmaC (addrs : List Nat)
  /-- validate_page invoked by the wlistcache success callback (line 297) -/
  | validate (addr : Nat)
  /-- cancel_page_validation in the wlistcache fallback loop (line 310) -/
  | cancel (addr : Nat)
  /-- clist completion success with the copied bytes (line 327) -/
  | clOut (meta : Nat) (data : Buf)
  /-- clist completion failure (line 329) -/
  | clFail (meta : Nat)
  /-- entry into the batch-drain block (condition at line 271 held) -/
  | drain
deriving DecidableEq

/-- Events belonging to the wlist drain phase. -/
def Ev.isWPhase : Ev → Bool
  | .dmaW _ => true
  | .wOut _ => true
  | .wFail _ => true
  | _ => false

/-- Events belonging to the wlistcache drain phase. -/
def Ev.isCPhase : Ev → Bool
  | .dmaC _ => true
  | .validate _ => true
  | .cancel _ => true
  | _ => false

/-- Events belonging to the clist completion phase. -/
def Ev.isClPhase : Ev → Bool
  | .clOut _ _ => true
  | .clFail _ => true
  | _ => false

/-- The backing DMA contract phys_read_raw_iter: consumes the batch of
(address, meta, length) triples; on success reports, per entry in input
order, whether the success callback was invoked (true) or the failure
callback (false); a hard error aborts the call. -/
abbrev Dma := List (Nat × Nat × Nat) → Except Unit (List Bool)

/-- The local state of one cached_read call: the cache plus the three
bounded work lists and the event trace. -/
structure EngineState (V : Type) where
  cache : PageCache V
  wlist : List Req
  wlistcache : List (Nat × Nat × Buf)
  clist : List Req
  evs : List Ev

/-- The page_chunks splitter: cut the byte range of length len starting at
address start into sub-ranges that each lie inside one page of size ps,
advancing the meta cursor in step.  Chunks are (address, meta, length).
Written with an explicit step bound for structural recursion: every step
strips at least one byte whenever ps and len are positive, so a bound of
len steps computes the full list.  The engine only invokes it with the
cache page size, which construction guarantees to be a positive power of
two; for ps = 0 the source would panic in the gap computation, and that
call is unreachable. -/
def pageChunksGo (ps : Nat) : Nat → Nat → Nat → Nat → List (Nat × Nat × Nat)
  | 0, _, _, _ => []
  | fuel + 1, start, m0, len =>
    if ps = 0 ∨ len = 0 then []
    else
      let step := min len (ps - start % ps)
      (start, m0, step)
        :: pageChunksGo ps fuel (start + step) (m0 + step) (len - step)

/-- The page_chunks splitter at its natural step bound. -/
def pageChunks (ps start m0 len : Nat) : List (Nat × Nat × Nat) :=
  pageChunksGo ps len start m0 len

/-- Classification of one page chunk (source lines 222-264): look the chunk
up in the slot table and either serve it from cache, schedule a fill, or
record it as a miss.  pt and psOrig are the page type and page size of the
original request, preserved on every chunk. -/
def classifyChunk (vi : Validator V) (pt psOrig : Nat)
    (paddr m0 clen : Nat) (s : EngineState V) : Option (EngineState V) :=
  match cached_page_mut vi s.cache paddr false with
  | none => none
  | some (entry, c1) =>
    match entry.validity with
    | .Valid buf =>
      let aligned := as_page_aligned paddr c1.page_size
      let start := paddr - aligned
      let data := (buf.drop start).take clen
      match put_page c1 entry.address buf with
      | none => none
      | some c2 =>
        some { s with cache := c2, evs := s.evs ++ [Ev.hitOut m0 data] }
    | .Validatable buf =>
      match mark_page_for_validation c1 entry.address with
      | none => none
      | some c2 =>
        some { s with cache := c2,
                      clist := s.clist ++ [⟨⟨paddr, pt, psOrig⟩, m0, clen⟩],
                      wlistcache := s.wlistcache ++ [(entry.address, m0, buf)] }
    | .ToBeValidated =>
      some { s with cache := c1,
                    clist := s.clist ++ [⟨⟨paddr, pt, psOrig⟩, m0, clen⟩] }
    | .Invalid =>
      some { s with cache := c1,
                    wlist := s.wlist ++ [⟨⟨paddr, pt, psOrig⟩, m0, clen⟩] }

/-- Fold classifyChunk over the chunk list of one request. -/
def processChunks (vi : Validator V) (pt psOrig : Nat) :
    List (Nat × Nat × Nat) → EngineState V → Option (EngineState V)
  | [], s => some s
  | (a, m, l) :: rest, s =>
    (classifyChunk vi pt psOrig a m l s).bind (processChunks vi pt psOrig rest)

/-- Consume one input request (source lines 218-267): uncacheable page
types are pushed whole onto wlist, cacheable requests are split into page
chunks and classified one by one. -/
def processReq (vi : Validator V) (r : Req) (s : EngineState V) :
    Option (EngineState V) :=
  if is_cached_page_type s.cache r.pa.page_type then
    processChunks vi r.pa.page_type r.pa.page_size
      (pageChunks s.cache.page_size r.pa.address r.meta r.len) s
  else
    some { s with wlist := s.wlist ++ [r] }

/-- Callback events produced by the wlist DMA call, one per request in
order according to the success flags. -/
def wCallbackEvs (reqs : List Req) (flags : List Bool) : List Ev :=
  (reqs.zip flags).map fun p => if p.2 then Ev.wOut p.1.meta else Ev.wFail p.1.meta

/-- Drain wlist (source lines 276-286): forward the whole list to the
backing DMA with the caller callbacks; a hard error propagates at once
through the question-mark operator. -/
def drainWlist (dma : Dma) (s : EngineState V) :
    Option (EngineState V × Bool) :=
  if s.wlist.isEmpty then some (s, true)
  else
    let inp := s.wlist.map fun r => (r.pa.address, r.meta, r.len)
    let s1 := { s with evs := s.evs ++ [Ev.dmaW inp] }
    match dma inp with
    | .error _ => some ({ s1 with wlist := [] }, false)
    | .ok flags =>
      some ({ s1 with wlist := [],
                      evs := s1.evs ++ wCallbackEvs s.wlist flags }, true)

/-- First pass of the wlistcache drain: the DMA success callback invokes
validate_page for each entry it reports success for, in order. -/
def applyValidates (vi : Validator V) :
    List ((Nat × Nat × Buf) × Bool) → PageCache V →
    Option (PageCache V × List Ev)
  | [], c => some (c, [])
  | (e, f) :: rest, c =>
    if f then
      match validate_page vi c e.1 e.2.2 with
      | none => none
      | some c1 =>
        (applyValidates vi rest c1).map fun r => (r.1, Ev.validate e.1 :: r.2)
    else
      applyValidates vi rest c

/-- Second pass of the wlistcache drain (source lines 309-311):
cancel_page_validation is applied to every entry; validated slots no
longer carry a pending marker, so the call is a no-op for them. -/
def applyCancels (vi : Validator V) :
    List (Nat × Nat × Buf) → PageCache V → Option (PageCache V × List Ev)
  | [], c => some (c, [])
  | e :: rest, c =>
    match cancel_page_validation vi c e.1 e.2.2 with
    | none => none
    | some c1 =>
      (applyCancels vi rest c1).map fun r => (r.1, Ev.cancel e.1 :: r.2)

/-- Drain wlistcache (source lines 288-314): whole-page reads into the
lent buffers with a validating success callback, then the cancel fallback
over every entry.  A hard DMA error propagates at once through the
question-mark operator, skipping the fallback. -/
def drainWlistcache (vi : Validator V) (dma : Dma) (s : EngineState V) :
    Option (EngineState V × Bool) :=
  if s.wlistcache.isEmpty then some (s, true)
  else
    let entries := s.wlistcache
    let inp := entries.map fun e => (e.1, e.1, e.2.2.length)
    let s1 := { s with evs := s.evs ++ [Ev.dmaC (entries.map fun e => e.1)] }
    match dma inp with
    | .error _ => some (s1, false)
    | .ok flags =>
      match applyValidates vi (entries.zip flags) s1.cache with
      | none => none
      | some (c1, evs1) =>
        match applyCancels vi entries c1 with
        | none => none
        | some (c2, evs2) =>
          some ({ s1 with cache := c2, wlistcache := [],
                          evs := s1.evs ++ evs1 ++ evs2 }, true)

/-- One clist completion (source lines 316-331): re-look the chunk up and
serve it from the now-resident slot on Valid, otherwise signal failure.
A non-Valid lookup that still carried a buffer drops it, as in the
source. -/
def clistStep (vi : Validator V) (r : Req) (s : EngineState V) :
    Option (EngineState V) :=
  match cached_page_mut vi s.cache r.pa.address false with
  | none => none
  | some (entry, c1) =>
    let aligned := as_page_aligned entry.address c1.page_size
    let start := r.pa.address - aligned
    match entry.validity with
    | .Valid buf =>
      let data := (buf.drop start).take r.len
      match put_page c1 entry.address buf with
      | none => none
      | some c2 =>
        some { s with cache := c2, evs := s.evs ++ [Ev.clOut r.meta data] }
    | _ =>
      some { s with cache := c1, evs := s.evs ++ [Ev.clFail r.meta] }

/-- Pop-and-complete loop over clist entries in pop order. -/
def drainClistGo (vi : Validator V) :
    List Req → EngineState V → Option (EngineState V)
  | [], s => some s
  | r :: rest, s => (clistStep vi r s).bind (drainClistGo vi rest)

/-- Drain clist: clist.pop() removes from the back, so entries complete in
reverse push order. -/
def drainClist (vi : Validator V) (s : EngineState V) :
    Option (EngineState V) :=
  drainClistGo vi s.clist.reverse { s with clist := [] }

/-- One batch drain (source lines 276-331): wlist first, then wlistcache,
then the clist completions; a DMA error stops the drain where it struck. -/
def drainBatch (vi : Validator V) (dma : Dma) (s : EngineState V) :
    Option (EngineState V × Bool) :=
  let s0 := { s with evs := s.evs ++ [Ev.drain] }
  match drainWlist dma s0 with
  | none => none
  | some (s1, false) => some (s1, false)
  | some (s1, true) =>
    match drainWlistcache vi dma s1 with
    | none => none
    | some (s2, false) => some (s2, false)
    | some (s2, true) => (drainClist vi s2).map fun s3 => (s3, true)

/-- The batch-drain condition of source line 271: the lookahead iterator
is exhausted, or a work list reached 64 entries. -/
def batchCond (s : EngineState V) (next : Option Req) : Bool :=
  next.isNone || decide (64 ≤ s.wlist.length)
    || decide (64 ≤ s.wlistcache.length) || decide (64 ≤ s.clist.length)

/-- The while-let loop of cached_read (source lines 218-333), written with
the current request and the not-yet-consumed tail of the iterator; the
lookahead next = iter.next() is the head of that tail.  The drain block is
inlined as in the source. -/
def readLoop (vi : Validator V) (dma : Dma) :
    Req → List Req → EngineState V → Option (EngineState V × Bool)
  | r, rest, s =>
    match processReq vi r s with
    | none => none
    | some s' =>
      if rest.isEmpty = true ∨ 64 ≤ s'.wlist.length
          ∨ 64 ≤ s'.wlistcache.length ∨ 64 ≤ s'.clist.length then
        match drainBatch vi dma s' with
        | none => none
        | some (s'', false) => some (s'', false)
        | some (s'', true) =>
          match rest with
          | [] => some (s'', true)
          | r' :: rest' => readLoop vi dma r' rest' s''
      else
        match rest with
        | [] => some (s', true)
        | r' :: rest' => readLoop vi dma r' rest' s'

/-- cached_read (source lines 200-337): run the loop from the empty work
lists; returns the final cache, the event trace, and whether the call
returned Ok (true) or propagated a DMA error (false); none models a
panic. -/
def cachedRead (vi : Validator V) (dma : Dma) (c : PageCache V)
    (reqs : List Req) : Option (PageCache V × List Ev × Bool) :=
  match reqs with
  | [] => some (c, [], true)
  | r :: rest =>
    (readLoop vi dma r rest ⟨c, [], [], [], []⟩).map fun p =>
      (p.1.cache, p.1.evs, p.2)

/-- Concrete validator instance for witnesses: per-slot freshness flags,
with the derived Clone (state copied). -/
def boolValidator : Validator (List Bool) :=
  { is_slot_valid := fun v i => v.getD i false
    validate_slot := fun v i => v.set i true
    invalidate_slot := fun v i => v.set i false
    allocate_slots := fun _ n => List.replicate n false
    clone := fun v => v }

/-- A one-slot cache with page size 16 and mask 8, for concrete runs. -/
def wCache (a aov : Nat) (pr : Option Buf) (v : Bool) : PageCache (List Bool) :=
  { address := [a], page_refs := [pr], address_once_validated := [aov],
    page_size := 16, page_type_mask := 8, validator := [v] }

theorem getD_set_self {α : Type} (l : List α) (i : Nat) (a d : α)
    (h : i < l.length) : (l.set i a).getD i d = a := by
  simp [List.getD_eq_getElem?_getD, List.getElem?_set_self, h]

theorem getD_set_ne {α : Type} (l : List α) {i j : Nat} (a d : α)
    (h : i ≠ j) : (l.set i a).getD j d = l.getD j d := by
  simp [List.getD_eq_getElem?_getD, List.getElem?_set_ne h]

theorem getD_lt_of_ne_default {α : Type} (l : List α) (i : Nat) (d : α)
    (h : l.getD i d ≠ d) : i < l.length := by
  by_contra hlt
  exact h (by simp [List.getD_eq_getElem?_getD,
    List.getElem?_eq_none (Nat.le_of_not_lt hlt)])

/-- Computation lemma: take_page in the Valid branch. -/
theorem take_page_Valid (vi : Validator V) (c : PageCache V) (addr : Nat)
    (skip : Bool) (i : Nat) (buf : Buf) (h : page_index c addr = some i)
    (hb : c.page_refs.getD i none = some buf)
    (h1 : c.address.getD i INVALID = as_page_aligned addr c.page_size
      ∧ (skip = true ∨ vi.is_slot_valid c.validator i = true)) :
    take_page vi c addr skip
      = some (.Valid buf, { c with page_refs := c.page_refs.set i none }) := by
  simp only [take_page, h]
  rw [hb]
  split_ifs <;> simp_all

/-- Computation lemma: take_page in the Validatable branch. -/
theorem take_page_Validatable (vi : Validator V) (c : PageCache V) (addr : Nat)
    (skip : Bool) (i : Nat) (buf : Buf) (h : page_index c addr = some i)
    (hb : c.page_refs.getD i none = some buf)
    (h1 : ¬ (c.address.getD i INVALID = as_page_aligned addr c.page_size
      ∧ (skip = true ∨ vi.is_slot_valid c.validator i = true)))
    (h2 : c.address_once_validated.getD i INVALID
        = as_page_aligned addr c.page_size
      ∨ c.address_once_validated.getD i INVALID = INVALID) :
    take_page vi c addr skip
      = some (.Validatable buf, { c with page_refs := c.page_refs.set i none }) := by
  simp only [take_page, h]
  rw [hb]
  split_ifs <;> simp_all

/-- Computation lemma: take_page in the Invalid branch with a resident
buffer (the buffer is dropped). -/
theorem take_page_Invalid_resident (vi : Validator V) (c : PageCache V)
    (addr : Nat) (skip : Bool) (i : Nat) (buf : Buf)
    (h : page_index c addr = some i)
    (hb : c.page_refs.getD i none = some buf)
    (h1 : ¬ (c.address.getD i INVALID = as_page_aligned addr c.page_size
      ∧ (skip = true ∨ vi.is_slot_valid c.validator i = true)))
    (h2 : ¬ (c.address_once_validated.getD i INVALID
        = as_page_aligned addr c.page_size
      ∨ c.address_once_validated.getD i INVALID = INVALID)) :
    take_page vi c addr skip
      = some (.Invalid, { c with page_refs := c.page_refs.set i none }) := by
  simp only [take_page, h]
  rw [hb]
  split_ifs <;> simp_all

/-- Computation lemma: take_page in the ToBeValidated branch. -/
theorem take_page_ToBeValidated (vi : Validator V) (c : PageCache V)
    (addr : Nat) (skip : Bool) (i : Nat) (h : page_index c addr = some i)
    (hb : c.page_refs.getD i none = none)
    (h2 : c.address_once_validated.getD i INVALID
        = as_page_aligned addr c.page_size) :
    take_page vi c addr skip
      = some (.ToBeValidated, { c with page_refs := c.page_refs.set i none }) := by
  simp only [take_page, h]
  rw [hb]
  split_ifs <;> simp_all

/-- Computation lemma: take_page in the Invalid branch with an empty
slot. -/
theorem take_page_Invalid_empty (vi : Validator V) (c : PageCache V)
    (addr : Nat) (skip : Bool) (i : Nat) (h : page_index c addr = some i)
    (hb : c.page_refs.getD i none = none)
    (h2 : ¬ c.address_once_validated.getD i INVALID
        = as_page_aligned addr c.page_size) :
    take_page vi c addr skip
      = some (.Invalid, { c with page_refs := c.page_refs.set i none }) := by
  simp only [take_page, h]
  rw [hb]
  split_ifs <;> simp_all

/-- C6: the slot-table lookup reports Valid exactly when the buffer is
resident, the address field equals the page-aligned query, and the
validator passes or is skipped; ToBeValidated exactly when the buffer is
absent and the pending address equals the aligned query; Validatable
exactly when the buffer is resident, the Valid condition fails, and the
pending address is INVALID or equals the aligned query.  cached_page_mut
wraps the same classification with the aligned address. -/
theorem c6_lookup_classification (vi : Validator V) (c : PageCache V)
    (addr : Nat) (skip : Bool) (i : Nat) (h : page_index c addr = some i) :
    ∃ res c', take_page vi c addr skip = some (res, c')
      ∧ cached_page_mut vi c addr skip
          = some (⟨as_page_aligned addr c.page_size, res⟩, c')
      ∧ (res.tag = 3 ↔ (c.page_refs.getD i none).isSome = true
          ∧ c.address.getD i INVALID = as_page_aligned addr c.page_size
          ∧ (skip = true ∨ vi.is_slot_valid c.validator i = true))
      ∧ (res.tag = 2 ↔ c.page_refs.getD i none = none
          ∧ c.address_once_validated.getD i INVALID
              = as_page_aligned addr c.page_size)
      ∧ (res.tag = 1 ↔ (c.page_refs.getD i none).isSome = true
          ∧ ¬ (c.address.getD i INVALID = as_page_aligned addr c.page_size
              ∧ (skip = true ∨ vi.is_slot_valid c.validator i = true))
          ∧ (c.address_once_validated.getD i INVALID
                = as_page_aligned addr c.page_size
              ∨ c.address_once_validated.getD i INVALID = INVALID)) := by
  cases hb : c.page_refs.getD i none with
  | some buf =>
    by_cases h1 : c.address.getD i INVALID = as_page_aligned addr c.page_size
        ∧ (skip = true ∨ vi.is_slot_valid c.validator i = true)
    · have he := take_page_Valid vi c addr skip i buf h hb h1
      refine ⟨.Valid buf, _, he, by rw [cached_page_mut, he]; rfl, ?_, ?_, ?_⟩
      · exact iff_of_true rfl ⟨rfl, h1.1, h1.2⟩
      · refine iff_of_false (by simp [PageValidity.tag]) ?_
        rintro ⟨hx, -⟩
        simp at hx
      · refine iff_of_false (by simp [PageValidity.tag]) ?_
        rintro ⟨-, hx, -⟩
        exact hx h1
    · by_cases h2 : c.address_once_validated.getD i INVALID
          = as_page_aligned addr c.page_size
          ∨ c.address_once_validated.getD i INVALID = INVALID
      · have he := take_page_Validatable vi c addr skip i buf h hb h1 h2
        refine ⟨.Validatable buf, _, he, by rw [cached_page_mut, he]; rfl,
          ?_, ?_, ?_⟩
        · refine iff_of_false (by simp [PageValidity.tag]) ?_
          rintro ⟨-, ha, hv⟩
          exact h1 ⟨ha, hv⟩
        · refine iff_of_false (by simp [PageValidity.tag]) ?_
          rintro ⟨hx, -⟩
          simp at hx
        · exact iff_of_true rfl ⟨rfl, h1, h2⟩
      · have he := take_page_Invalid_resident vi c addr skip i buf h hb h1 h2
        refine ⟨.Invalid, _, he, by rw [cached_page_mut, he]; rfl, ?_, ?_, ?_⟩
        · refine iff_of_false (by simp [PageValidity.tag]) ?_
          rintro ⟨-, ha, hv⟩
          exact h1 ⟨ha, hv⟩
        · refine iff_of_false (by simp [PageValidity.tag]) ?_
          rintro ⟨hx, -⟩
          simp at hx
        · refine iff_of_false (by simp [PageValidity.tag]) ?_
          rintro ⟨-, -, hx⟩
          exact h2 hx
  | none =>
    by_cases h2 : c.address_once_validated.getD i INVALID
        = as_page_aligned addr c.page_size
    · have he := take_page_ToBeValidated vi c addr skip i h hb h2
      refine ⟨.ToBeValidated, _, he, by rw [cached_page_mut, he]; rfl,
        ?_, ?_, ?_⟩
      · refine iff_of_false (by simp [PageValidity.tag]) ?_
        rintro ⟨hx, -⟩
        simp at hx
      · exact iff_of_true rfl ⟨rfl, h2⟩
      · refine iff_of_false (by simp [PageValidity.tag]) ?_
        rintro ⟨hx, -⟩
        simp at hx
    · have he := take_page_Invalid_empty vi c addr skip i h hb h2
      refine ⟨.Invalid, _, he, by rw [cached_page_mut, he]; rfl, ?_, ?_, ?_⟩
      · refine iff_of_false (by simp [PageValidity.tag]) ?_
        rintro ⟨hx, -⟩
        simp at hx
      · refine iff_of_false (by simp [PageValidity.tag]) ?_
        rintro ⟨-, hx⟩
        exact h2 hx
      · refine iff_of_false (by simp [PageValidity.tag]) ?_
        rintro ⟨hx, -⟩
        simp at hx

/-- C6 witness: the classification at a concrete one-slot cache. -/
theorem c6_lookup_classification_witness :
    ∃ res c',
      take_page boolValidator (wCache 0 INVALID (some (List.replicate 16 7)) true)
          3 false = some (res, c')
      ∧ cached_page_mut boolValidator
            (wCache 0 INVALID (some (List.replicate 16 7)) true) 3 false
          = some (⟨as_page_aligned 3 (wCache 0 INVALID (some (List.replicate 16 7)) true).page_size, res⟩, c')
      ∧ (res.tag = 3 ↔ (((wCache 0 INVALID (some (List.replicate 16 7)) true).page_refs.getD 0 none)).isSome = true
          ∧ (wCache 0 INVALID (some (List.replicate 16 7)) true).address.getD 0 INVALID
              = as_page_aligned 3 (wCache 0 INVALID (some (List.replicate 16 7)) true).page_size
          ∧ (false = true ∨ boolValidator.is_slot_valid
               (wCache 0 INVALID (some (List.replicate 16 7)) true).validator 0 = true))
      ∧ (res.tag = 2 ↔ (wCache 0 INVALID (some (List.replicate 16 7)) true).page_refs.getD 0 none = none
          ∧ (wCache 0 INVALID (some (List.replicate 16 7)) true).address_once_validated.getD 0 INVALID
              = as_page_aligned 3 (wCache 0 INVALID (some (List.replicate 16 7)) true).page_size)
      ∧ (res.tag = 1 ↔ (((wCache 0 INVALID (some (List.replicate 16 7)) true).page_refs.getD 0 none)).isSome = true
          ∧ ¬ ((wCache 0 INVALID (some (List.replicate 16 7)) true).address.getD 0 INVALID
                = as_page_aligned 3 (wCache 0 INVALID (some (List.replicate 16 7)) true).page_size
              ∧ (false = true ∨ boolValidator.is_slot_valid
                   (wCache 0 INVALID (some (List.replicate 16 7)) true).validator 0 = true))
          ∧ ((wCache 0 INVALID (some (List.replicate 16 7)) true).address_once_validated.getD 0 INVALID
                = as_page_aligned 3 (wCache 0 INVALID (some (List.replicate 16 7)) true).page_size
              ∨ (wCache 0 INVALID (some (List.replicate 16 7)) true).address_once_validated.getD 0 INVALID = INVALID)) :=
  c6_lookup_classification boolValidator
    (wCache 0 INVALID (some (List.replicate 16 7)) true) 3 false 0 (by decide)

/-- C10: when the lookup classifies a slot as Invalid although its buffer
is resident (address mismatch and a different non-INVALID pending
address), the buffer is removed from the slot and dropped: the result
carries no buffer and the slot position is left empty. -/
theorem c10_invalid_drops_buffer (vi : Validator V) (c : PageCache V)
    (addr : Nat) (skip : Bool) (i : Nat) (b : Buf)
    (h : page_index c addr = some i)
    (hb : c.page_refs.getD i none = some b)
    (h1 : c.address.getD i INVALID ≠ as_page_aligned addr c.page_size)
    (h2 : c.address_once_validated.getD i INVALID
        ≠ as_page_aligned addr c.page_size)
    (h3 : c.address_once_validated.getD i INVALID ≠ INVALID) :
    take_page vi c addr skip
      = some (.Invalid, { c with page_refs := c.page_refs.set i none })
    ∧ (c.page_refs.set i none).getD i none = none := by
  constructor
  · exact take_page_Invalid_resident vi c addr skip i b h hb
      (fun hc => h1 hc.1) (fun hc => hc.elim h2 h3)
  · have hlt : i < c.page_refs.length :=
      getD_lt_of_ne_default c.page_refs i none (by rw [hb]; simp)
    exact getD_set_self c.page_refs i none none hlt

/-- C10 witness: a concrete slot holding a buffer for page 0 with a
pending marker for page 32 drops its buffer on a lookup of page 16. -/
theorem c10_invalid_drops_buffer_witness :
    take_page boolValidator (wCache 0 32 (some (List.replicate 16 7)) true)
        16 false
      = some (.Invalid, { wCache 0 32 (some (List.replicate 16 7)) true with
          page_refs := (wCache 0 32 (some (List.replicate 16 7)) true).page_refs.set 0 none })
    ∧ ((wCache 0 32 (some (List.replicate 16 7)) true).page_refs.set 0 none).getD 0 none = none :=
  c10_invalid_drops_buffer boolValidator
    (wCache 0 32 (some (List.replicate 16 7)) true) 16 false 0
    (List.replicate 16 7) (by decide) (by decide) (by decide) (by decide)
    (by decide)

/-- C3 counterexample: slot 0 is pending at the aligned address 0 and the
caller passes the non-aligned address 3.  The claim asserts the guard
compares against the aligned address, so the slot would be reset and the
buffer reinstalled; the source compares against the raw address, and the
call leaves the cache unchanged with the slot still empty. -/
theorem c3_counterexample :
    (wCache INVALID 0 none false).address_once_validated.getD 0 INVALID
        = as_page_aligned 3 (wCache INVALID 0 none false).page_size
    ∧ cancel_page_validation boolValidator (wCache INVALID 0 none false) 3
        (List.replicate 16 7) = some (wCache INVALID 0 none false)
    ∧ (wCache INVALID 0 none false).page_refs.getD 0 none = none := by
  refine ⟨by decide, ?_, by decide⟩
  decide

/-- Slot index is unchanged by updates that preserve the page size and the
slot count. -/
theorem page_index_congr (c c' : PageCache V) (addr : Nat)
    (h1 : c'.page_size = c.page_size)
    (h2 : c'.address.length = c.address.length) :
    page_index c' addr = page_index c addr := by
  simp [page_index, h1, h2]

/-- Slot index after rewriting one address entry and arbitrary other
fields. -/
theorem page_index_mk (c : PageCache V) (addr i x : Nat) (v' : List Nat)
    (p' : List (Option Buf)) (w : V) :
    page_index { address := c.address.set i x, page_refs := p',
                 address_once_validated := v', page_size := c.page_size,
                 page_type_mask := c.page_type_mask, validator := w } addr
      = page_index c addr := by
  simp [page_index]

/-- C3 amended: cancel_page_validation resets both address fields and
reinstalls the buffer exactly when the pending marker equals the raw
caller address; when the marker differs from the raw address (in
particular for a non-aligned caller whose slot is pending at the aligned
address) the call is a no-op. -/
theorem c3_cancel_guard_is_raw (vi : Validator V) (c : PageCache V)
    (addr : Nat) (b : Buf) (i : Nat) (h : page_index c addr = some i) :
    (c.address_once_validated.getD i INVALID = addr →
      cancel_page_validation vi c addr b = some
        { c with validator := vi.invalidate_slot c.validator i,
                 address := c.address.set i INVALID,
                 address_once_validated := c.address_once_validated.set i INVALID,
                 page_refs := c.page_refs.set i (some b) })
    ∧ (c.address_once_validated.getD i INVALID ≠ addr →
      cancel_page_validation vi c addr b = some c) := by
  constructor
  · intro hg
    rw [cancel_page_validation, h, Option.some_bind, if_pos hg,
      invalidate_page_raw, h, Option.map_some', Option.some_bind, put_page,
      page_index_mk, h, Option.map_some']
  · intro hg
    rw [cancel_page_validation, h, Option.some_bind, if_neg hg]

/-- C3 amended witness: an aligned caller with a matching raw pending
marker gets the reset and reinstall; concrete evaluation. -/
theorem c3_cancel_guard_is_raw_witness :
    ((wCache INVALID 0 none false).address_once_validated.getD 0 INVALID = 0 →
      cancel_page_validation boolValidator (wCache INVALID 0 none false) 0
          (List.replicate 16 7) = some
        { wCache INVALID 0 none false with
            validator := boolValidator.invalidate_slot
              (wCache INVALID 0 none false).validator 0,
            address := (wCache INVALID 0 none false).address.set 0 INVALID,
            address_once_validated :=
              (wCache INVALID 0 none false).address_once_validated.set 0 INVALID,
            page_refs := (wCache INVALID 0 none false).page_refs.set 0
              (some (List.replicate 16 7)) })
    ∧ ((wCache INVALID 0 none false).address_once_validated.getD 0 INVALID ≠ 0 →
      cancel_page_validation boolValidator (wCache INVALID 0 none false) 0
          (List.replicate 16 7) = some (wCache INVALID 0 none false)) :=
  c3_cancel_guard_is_raw boolValidator (wCache INVALID 0 none false) 0
    (List.replicate 16 7) 0 (by decide)

/-- C4 counterexample: validating the non-aligned address 3 stores the raw
value 3 into the address field, not its aligned value 0, so the claimed
alignment of the stored address fails. -/
theorem c4_counterexample :
    (validate_page boolValidator (wCache INVALID INVALID none false) 3
        (List.replicate 16 7)).map (fun c' => c'.address.getD 0 INVALID)
      = some 3
    ∧ as_page_aligned 3 (wCache INVALID INVALID none false).page_size = 0 := by
  constructor
  · decide
  · decide

/-- C4 amended: validate_page stores the raw address into the address
field (aligned only when the caller already passed an aligned address, as
every engine call site does), clears the pending marker, marks the slot
valid with the validator, and reinstalls the buffer. -/
theorem c4_validate_page_fields (vi : Validator V) (c : PageCache V)
    (addr : Nat) (b : Buf) (i : Nat) (h : page_index c addr = some i) :
    validate_page vi c addr b = some
      { c with address := c.address.set i addr,
               address_once_validated := c.address_once_validated.set i INVALID,
               validator := vi.validate_slot c.validator i,
               page_refs := c.page_refs.set i (some b) }
    ∧ (i < c.address.length → (c.address.set i addr).getD i INVALID = addr) := by
  constructor
  · rw [validate_page, h, Option.some_bind, put_page,
      page_index_mk, h, Option.map_some']
  · intro hlt
    exact getD_set_self c.address i addr INVALID hlt

/-- C4 amended witness: concrete evaluation at address 3. -/
theorem c4_validate_page_fields_witness :
    validate_page boolValidator (wCache INVALID INVALID none false) 3
        (List.replicate 16 7) = some
      { wCache INVALID INVALID none false with
          address := (wCache INVALID INVALID none false).address.set 0 3,
          address_once_validated :=
            (wCache INVALID INVALID none false).address_once_validated.set 0 INVALID,
          validator := boolValidator.validate_slot
            (wCache INVALID INVALID none false).validator 0,
          page_refs := (wCache INVALID INVALID none false).page_refs.set 0
            (some (List.replicate 16 7)) }
    ∧ (0 < (wCache INVALID INVALID none false).address.length →
        ((wCache INVALID INVALID none false).address.set 0 3).getD 0 INVALID = 3) :=
  c4_validate_page_fields boolValidator (wCache INVALID INVALID none false) 3
    (List.replicate 16 7) 0 (by decide)

/-- C5 counterexample: with mask 8 (READ_ONLY) and page type 12
(READ_ONLY and WRITEABLE), the type intersects the mask, yet the request
is not treated as cacheable and invalidate_page leaves the cache
unchanged, because the source uses the bitflags subset test. -/
theorem c5_counterexample :
    is_cached_page_type (wCache INVALID INVALID none false) 12 = false
    ∧ 12 &&& (wCache INVALID INVALID none false).page_type_mask ≠ 0
    ∧ invalidate_page boolValidator (wCache INVALID INVALID none false) 0 12
        = some (wCache INVALID INVALID none false) := by
  refine ⟨by decide, by decide, ?_⟩
  decide

/-- C5 amended: a page type is treated as cacheable exactly when every one
of its flag bits is set in the configured mask (the bitflags containment
test), and invalidate_page applies invalidate_page_raw exactly under the
same test. -/
theorem c5_cacheable_iff_contains (vi : Validator V) (c : PageCache V)
    (t addr : Nat) :
    (is_cached_page_type c t = true
      ↔ ∀ b, t.testBit b = true → c.page_type_mask.testBit b = true)
    ∧ (is_cached_page_type c t = true →
        invalidate_page vi c addr t = invalidate_page_raw vi c addr)
    ∧ (is_cached_page_type c t = false →
        invalidate_page vi c addr t = some c) := by
  refine ⟨?_, ?_, ?_⟩
  · rw [is_cached_page_type, beq_iff_eq]
    constructor
    · intro he b hbt
      have := congrArg (fun x => x.testBit b) he
      simp only [Nat.testBit_and, hbt, Bool.and_true] at this
      exact this
    · intro hall
      apply Nat.eq_of_testBit_eq
      intro b
      rw [Nat.testBit_and]
      cases hbt : t.testBit b with
      | true => simp [hall b hbt]
      | false => simp
  · intro hc
    rw [invalidate_page, hc]
    simp
  · intro hc
    rw [invalidate_page, hc]
    simp

/-- C5 amended witness: concrete evaluation at mask 8 and type 8. -/
theorem c5_cacheable_iff_contains_witness :
    (is_cached_page_type (wCache INVALID INVALID none false) 8 = true
      ↔ ∀ b, (8 : Nat).testBit b = true →
          (wCache INVALID INVALID none false).page_type_mask.testBit b = true)
    ∧ (is_cached_page_type (wCache INVALID INVALID none false) 8 = true →
        invalidate_page boolValidator (wCache INVALID INVALID none false) 0 8
          = invalidate_page_raw boolValidator (wCache INVALID INVALID none false) 0)
    ∧ (is_cached_page_type (wCache INVALID INVALID none false) 8 = false →
        invalidate_page boolValidator (wCache INVALID INVALID none false) 0 8
          = some (wCache INVALID INVALID none false)) :=
  c5_cacheable_iff_contains boolValidator (wCache INVALID INVALID none false) 8 0

/-- If a lookup reports Valid, the address field matched the aligned
query. -/
theorem take_page_tag3_addr (vi : Validator V) (c : PageCache V) (addr : Nat)
    (skip : Bool) (i : Nat) (res : PageValidity) (c' : PageCache V)
    (h : page_index c addr = some i)
    (htp : take_page vi c addr skip = some (res, c'))
    (htag : res.tag = 3) :
    c.address.getD i INVALID = as_page_aligned addr c.page_size := by
  by_cases h1 : c.address.getD i INVALID = as_page_aligned addr c.page_size
  · exact h1
  · exfalso
    have h1' : ¬ (c.address.getD i INVALID = as_page_aligned addr c.page_size
        ∧ (skip = true ∨ vi.is_slot_valid c.validator i = true)) :=
      fun hc => h1 hc.1
    cases hb : c.page_refs.getD i none with
    | some buf =>
      by_cases h2 : c.address_once_validated.getD i INVALID
          = as_page_aligned addr c.page_size
          ∨ c.address_once_validated.getD i INVALID = INVALID
      · rw [take_page_Validatable vi c addr skip i buf h hb h1' h2] at htp
        simp only [Option.some_inj, Prod.mk.injEq] at htp
        rw [← htp.1] at htag
        simp [PageValidity.tag] at htag
      · rw [take_page_Invalid_resident vi c addr skip i buf h hb h1' h2] at htp
        simp only [Option.some_inj, Prod.mk.injEq] at htp
        rw [← htp.1] at htag
        simp [PageValidity.tag] at htag
    | none =>
      by_cases h2 : c.address_once_validated.getD i INVALID
          = as_page_aligned addr c.page_size
      · rw [take_page_ToBeValidated vi c addr skip i h hb h2] at htp
        simp only [Option.some_inj, Prod.mk.injEq] at htp
        rw [← htp.1] at htag
        simp [PageValidity.tag] at htag
      · rw [take_page_Invalid_empty vi c addr skip i h hb h2] at htp
        simp only [Option.some_inj, Prod.mk.injEq] at htp
        rw [← htp.1] at htag
        simp [PageValidity.tag] at htag

/-- Page alignment produces a multiple of the page size. -/
theorem page_size_dvd_aligned (a ps : Nat) : ps ∣ as_page_aligned a ps := by
  have := Nat.div_add_mod a ps
  have h : as_page_aligned a ps = ps * (a / ps) := by
    rw [as_page_aligned]
    omega
  rw [h]
  exact Dvd.intro _ rfl

/-- C8 counterexample: the Clone impl copies the validator state via the
validator Clone rather than resetting it to the nothing-cached state.
With the concrete flag validator (whose derived Clone copies the flags),
a cache whose validator marks slot 0 fresh clones to one whose validator
still marks slot 0 fresh. -/
theorem c8_counterexample :
    (clonePC boolValidator
        (wCache 0 INVALID (some (List.replicate 16 7)) true)).validator
      = (wCache 0 INVALID (some (List.replicate 16 7)) true).validator
    ∧ (clonePC boolValidator
        (wCache 0 INVALID (some (List.replicate 16 7)) true)).validator
      ≠ List.replicate 1 false
    ∧ boolValidator.is_slot_valid
        (clonePC boolValidator
          (wCache 0 INVALID (some (List.replicate 16 7)) true)).validator 0
      = true := by
  refine ⟨rfl, by decide, rfl⟩

/-- C8 amended: clone produces a cache of identical dimensions whose pool
bytes equal the bytes of the original pool, whose two address arrays are
reset to INVALID, and whose validator is the Clone copy of the original
validator state rather than a reset; the reset address fields alone
guarantee that no slot of the clone reports Valid (for any even page
size), so the clone still starts with nothing cached. -/
theorem c8_clone_fields (vi : Validator V) (c : PageCache V) :
    (clonePC vi c).address = List.replicate c.address.length INVALID
    ∧ (clonePC vi c).address_once_validated
        = List.replicate c.address.length INVALID
    ∧ (clonePC vi c).page_refs = c.page_refs
    ∧ (clonePC vi c).page_size = c.page_size
    ∧ (clonePC vi c).page_type_mask = c.page_type_mask
    ∧ (clonePC vi c).validator = vi.clone c.validator
    ∧ (2 ∣ c.page_size →
        ∀ addr skip res c', take_page vi (clonePC vi c) addr skip
            = some (res, c') → res.tag ≠ 3) := by
  refine ⟨rfl, rfl, rfl, rfl, rfl, rfl, ?_⟩
  intro hdvd addr skip res c' htp htag
  cases hpi : page_index (clonePC vi c) addr with
  | none => rw [take_page, hpi] at htp; cases htp
  | some i =>
    have haddr := take_page_tag3_addr vi (clonePC vi c) addr skip i res c'
      hpi htp htag
    have hinv : (clonePC vi c).address.getD i INVALID = INVALID := by
      by_cases hlt : i < (clonePC vi c).address.length
      · rw [clonePC] at hlt ⊢
        simp only [List.length_replicate] at hlt
        simp [List.getD_eq_getElem?_getD, List.getElem?_replicate, hlt]
      · simp [List.getD_eq_getElem?_getD,
          List.getElem?_eq_none (Nat.le_of_not_lt hlt)]
    rw [hinv] at haddr
    have h2 : 2 ∣ as_page_aligned addr (clonePC vi c).page_size := by
      have : (clonePC vi c).page_size = c.page_size := rfl
      rw [this]
      exact dvd_trans hdvd (page_size_dvd_aligned addr c.page_size)
    rw [← haddr] at h2
    rw [INVALID] at h2
    omega

/-- C8 amended witness: concrete evaluation of the clone fields. -/
theorem c8_clone_fields_witness :
    (clonePC boolValidator (wCache 0 INVALID (some (List.replicate 16 7)) true)).address
      = List.replicate (wCache 0 INVALID (some (List.replicate 16 7)) true).address.length INVALID
    ∧ (clonePC boolValidator (wCache 0 INVALID (some (List.replicate 16 7)) true)).address_once_validated
      = List.replicate (wCache 0 INVALID (some (List.replicate 16 7)) true).address.length INVALID
    ∧ (clonePC boolValidator (wCache 0 INVALID (some (List.replicate 16 7)) true)).page_refs
      = (wCache 0 INVALID (some (List.replicate 16 7)) true).page_refs
    ∧ (clonePC boolValidator (wCache 0 INVALID (some (List.replicate 16 7)) true)).page_size
      = (wCache 0 INVALID (some (List.replicate 16 7)) true).page_size
    ∧ (clonePC boolValidator (wCache 0 INVALID (some (List.replicate 16 7)) true)).page_type_mask
      = (wCache 0 INVALID (some (List.replicate 16 7)) true).page_type_mask
    ∧ (clonePC boolValidator (wCache 0 INVALID (some (List.replicate 16 7)) true)).validator
      = boolValidator.clone (wCache 0 INVALID (some (List.replicate 16 7)) true).validator
    ∧ (2 ∣ (wCache 0 INVALID (some (List.replicate 16 7)) true).page_size →
        ∀ addr skip res c', take_page boolValidator
            (clonePC boolValidator (wCache 0 INVALID (some (List.replicate 16 7)) true)) addr skip
            = some (res, c') → res.tag ≠ 3) :=
  c8_clone_fields boolValidator (wCache 0 INVALID (some (List.replicate 16 7)) true)

/-- C9: constructing a cache with total size below the page size yields a
zero slot count; the slot index computation then takes a remainder by
zero, so every slot operation panics (none), and cached_read on any
cacheable request of nonzero length panics as well, rather than treating
the request as an uncacheable passthrough. -/
theorem c9_zero_slots_panic (vi : Validator V) (ps total mask : Nat) (v : V)
    (hps : ps ≠ 0) (hpow : ps &&& (ps - 1) = 0) (hlt : total < ps) :
    ∃ cache, with_page_size vi ps total mask v = some cache
      ∧ cache.address.length = 0
      ∧ (∀ addr, page_index cache addr = none)
      ∧ (∀ addr skip, take_page vi cache addr skip = none)
      ∧ (∀ addr, mark_page_for_validation cache addr = none)
      ∧ (∀ addr b, validate_page vi cache addr b = none)
      ∧ (∀ addr b, cancel_page_validation vi cache addr b = none)
      ∧ (∀ addr, invalidate_page_raw vi cache addr = none)
      ∧ (∀ r dma, is_cached_page_type cache r.pa.page_type = true →
          r.len ≠ 0 → cachedRead vi dma cache [r] = none) := by
  have hdiv : total / ps = 0 := Nat.div_eq_of_lt hlt
  have hw : with_page_size vi ps total mask v = some
      { address := [], page_refs := [], address_once_validated := [],
        page_size := ps, page_type_mask := mask,
        validator := vi.allocate_slots v 0 } := by
    rw [with_page_size, if_neg hps, if_neg (not_not_intro hpow)]
    simp [hdiv]
  refine ⟨_, hw, rfl, ?_, ?_, ?_, ?_, ?_, ?_, ?_⟩
  case _ => intro addr; simp [page_index]
  case _ =>
    intro addr skip
    simp [take_page, page_index]
  case _ =>
    intro addr
    simp [mark_page_for_validation, page_index]
  case _ =>
    intro addr b
    simp [validate_page, page_index]
  case _ =>
    intro addr b
    simp [cancel_page_validation, page_index]
  case _ =>
    intro addr
    simp [invalidate_page_raw, page_index]
  case _ =>
    intro r dma hcached hlen
    have htake : ∀ skip, take_page vi
        ({ address := [], page_refs := [], address_once_validated := [],
           page_size := ps, page_type_mask := mask,
           validator := vi.allocate_slots v 0 } : PageCache V)
        r.pa.address skip = none := by
      intro skip
      simp [take_page, page_index]
    obtain ⟨n, hn⟩ : ∃ n, r.len = n + 1 :=
      ⟨r.len - 1, by omega⟩
    have hchunks : pageChunks ps r.pa.address r.meta r.len
        = (r.pa.address, r.meta, min r.len (ps - r.pa.address % ps))
          :: pageChunksGo ps n
              (r.pa.address + min r.len (ps - r.pa.address % ps))
              (r.meta + min r.len (ps - r.pa.address % ps))
              (r.len - min r.len (ps - r.pa.address % ps)) := by
      conv_lhs => rw [pageChunks, hn]
      rw [pageChunksGo, if_neg (by simp [hps, hn])]
      rw [← hn]
    simp only [cachedRead, readLoop, processReq, hcached, if_true, hchunks,
      processChunks, classifyChunk, cached_page_mut, htake, Option.map_none',
      Option.none_bind]

/-- C9 witness: a 16-byte-page cache of total size 8 with a cacheable
4-byte request panics. -/
theorem c9_zero_slots_panic_witness :
    ∃ cache, with_page_size boolValidator 16 8 3 [] = some cache
      ∧ cache.address.length = 0
      ∧ (∀ addr, page_index cache addr = none)
      ∧ (∀ addr skip, take_page boolValidator cache addr skip = none)
      ∧ (∀ addr, mark_page_for_validation cache addr = none)
      ∧ (∀ addr b, validate_page boolValidator cache addr b = none)
      ∧ (∀ addr b, cancel_page_validation boolValidator cache addr b = none)
      ∧ (∀ addr, invalidate_page_raw boolValidator cache addr = none)
      ∧ (∀ r dma, is_cached_page_type cache r.pa.page_type = true →
          r.len ≠ 0 → cachedRead boolValidator dma cache [r] = none) :=
  c9_zero_slots_panic boolValidator 16 8 3 [] (by decide) (by decide)
    (by decide)

/-- A DMA that always reports a hard error. -/
def errDma : Dma := fun _ => .error ()

/-- C1 counterexample: a single cacheable request hits a Validatable slot,
so the slot buffer is lent to a wlistcache entry; the DMA then fails the
wlistcache drain and cached_read propagates the error at once.  The final
state shows the violation of the claim: the call returned the error while
the slot is still empty (the loaned buffer was never reinstalled), the
pending marker is still set, and no cancel event was ever emitted. -/
theorem c1_counterexample :
    cachedRead boolValidator errDma
        (wCache INVALID INVALID (some (List.replicate 16 5)) false)
        [⟨⟨0, 8, 4096⟩, 100, 4⟩]
      = some
        ({ address := [INVALID], page_refs := [none],
           address_once_validated := [0], page_size := 16,
           page_type_mask := 8, validator := [false] },
          [Ev.drain, Ev.dmaC [0]], false)
    ∧ Ev.cancel 0 ∉ [Ev.drain, Ev.dmaC [0]]
    ∧ ([(none : Option Buf)].getD 0 none) = none := by
  refine ⟨by decide, by decide, rfl⟩

/-- C1 amended: a hard error from the backing DMA propagates out of
cached_read immediately through the question-mark operator.  An error in
the wlist drain returns before the wlistcache DMA call, the cancel
fallback and the clist completions (so wlistcache buffers on loan stay
out of their slots); an error in the wlistcache drain returns before the
cancel fallback and the clist completions. -/
theorem c1_error_immediate (vi : Validator V) (dma : Dma)
    (s : EngineState V) :
    (s.wlist ≠ [] →
      dma (s.wlist.map fun r => (r.pa.address, r.meta, r.len)) = .error () →
      drainBatch vi dma s = some
        ({ s with wlist := [],
                  evs := s.evs ++ [Ev.drain,
                    Ev.dmaW (s.wlist.map fun r => (r.pa.address, r.meta, r.len))] },
          false))
    ∧ (s.wlist = [] → s.wlistcache ≠ [] →
      dma (s.wlistcache.map fun e => (e.1, e.1, e.2.2.length)) = .error () →
      drainBatch vi dma s = some
        ({ s with evs := s.evs ++ [Ev.drain,
            Ev.dmaC (s.wlistcache.map fun e => e.1)] }, false)) := by
  constructor
  · intro hne herr
    simp only [drainBatch, drainWlist]
    rw [if_neg (by simpa using hne)]
    rw [herr]
    simp
  · intro hwe hce herr
    simp only [drainBatch, drainWlist, drainWlistcache, hwe, List.isEmpty_nil,
      if_true]
    rw [if_neg (by simpa using hce)]
    rw [herr]
    simp

/-- C1 amended witness: concrete one-entry states for both error points. -/
theorem c1_error_immediate_witness :
    (([⟨⟨0, 8, 4096⟩, 100, 4⟩] : List Req) ≠ [] →
      errDma (([⟨⟨0, 8, 4096⟩, 100, 4⟩] : List Req).map
          fun r => (r.pa.address, r.meta, r.len)) = .error () →
      drainBatch boolValidator errDma
          ⟨wCache INVALID INVALID none false, [⟨⟨0, 8, 4096⟩, 100, 4⟩],
            [(0, 100, List.replicate 16 5)], [], []⟩
        = some
          ({ (⟨wCache INVALID INVALID none false, [⟨⟨0, 8, 4096⟩, 100, 4⟩],
                [(0, 100, List.replicate 16 5)], [], []⟩ : EngineState (List Bool)) with
              wlist := [],
              evs := ([] : List Ev) ++ [Ev.drain,
                Ev.dmaW (([⟨⟨0, 8, 4096⟩, 100, 4⟩] : List Req).map
                  fun r => (r.pa.address, r.meta, r.len))] },
            false))
    ∧ (([⟨⟨0, 8, 4096⟩, 100, 4⟩] : List Req) = [] →
      ([(0, 100, List.replicate 16 5)] : List (Nat × Nat × Buf)) ≠ [] →
      errDma (([(0, 100, List.replicate 16 5)] : List (Nat × Nat × Buf)).map
          fun e => (e.1, e.1, e.2.2.length)) = .error () →
      drainBatch boolValidator errDma
          ⟨wCache INVALID INVALID none false, [⟨⟨0, 8, 4096⟩, 100, 4⟩],
            [(0, 100, List.replicate 16 5)], [], []⟩
        = some
          ({ (⟨wCache INVALID INVALID none false, [⟨⟨0, 8, 4096⟩, 100, 4⟩],
                [(0, 100, List.replicate 16 5)], [], []⟩ : EngineState (List Bool)) with
              evs := ([] : List Ev) ++ [Ev.drain,
                Ev.dmaC (([(0, 100, List.replicate 16 5)] : List (Nat × Nat × Buf)).map
                  fun e => e.1)] }, false)) :=
  c1_error_immediate boolValidator errDma
    ⟨wCache INVALID INVALID none false, [⟨⟨0, 8, 4096⟩, 100, 4⟩],
      [(0, 100, List.replicate 16 5)], [], []⟩

/-- Computation form of validate_page when the slot index is defined. -/
theorem validate_page_eq (vi : Validator V) (c : PageCache V) (addr : Nat)
    (b : Buf) (i : Nat) (h : page_index c addr = some i) :
    validate_page vi c addr b = some
      { c with address := c.address.set i addr,
               address_once_validated := c.address_once_validated.set i INVALID,
               validator := vi.validate_slot c.validator i,
               page_refs := c.page_refs.set i (some b) } := by
  rw [validate_page, h, Option.some_bind, put_page,
    page_index_mk, h, Option.map_some']

/-- Computation form of cancel_page_validation when the guard holds. -/
theorem cancel_page_validation_pos (vi : Validator V) (c : PageCache V)
    (addr : Nat) (b : Buf) (i : Nat) (h : page_index c addr = some i)
    (hg : c.address_once_validated.getD i INVALID = addr) :
    cancel_page_validation vi c addr b = some
      { c with validator := vi.invalidate_slot c.validator i,
               address := c.address.set i INVALID,
               address_once_validated := c.address_once_validated.set i INVALID,
               page_refs := c.page_refs.set i (some b) } := by
  rw [cancel_page_validation, h, Option.some_bind, if_pos hg,
    invalidate_page_raw, h, Option.map_some', Option.some_bind, put_page,
    page_index_mk, h, Option.map_some']

/-- Computation form of cancel_page_validation when the guard fails. -/
theorem cancel_page_validation_neg (vi : Validator V) (c : PageCache V)
    (addr : Nat) (b : Buf) (i : Nat) (h : page_index c addr = some i)
    (hg : c.address_once_validated.getD i INVALID ≠ addr) :
    cancel_page_validation vi c addr b = some c := by
  rw [cancel_page_validation, h, Option.some_bind, if_neg hg]

/-- The three per-slot fields the drain claims talk about: the validated
address, the pending address, and the (possibly absent) resident
buffer. -/
def slotFields (c : PageCache V) (i : Nat) : Nat × Nat × Option Buf :=
  (c.address.getD i INVALID, c.address_once_validated.getD i INVALID,
    c.page_refs.getD i none)

/-- The slot index of an address, defaulting to 0 (callers supply the
definedness of page_index separately). -/
def slotOf (c : PageCache V) (a : Nat) : Nat := (page_index c a).getD 0

/-- The slot index is in range whenever it is defined. -/
theorem slotOf_lt (c : PageCache V) (a : Nat)
    (h : page_index c a ≠ none) : slotOf c a < c.address.length := by
  rw [slotOf]
  rw [page_index] at h ⊢
  by_cases hc : c.page_size = 0 ∨ c.address.length = 0
  · exact absurd (if_pos hc) h
  · rw [if_neg hc]
    have : 0 < c.address.length := by
      rcases Nat.eq_zero_or_pos c.address.length with h0 | h0
      · exact absurd (Or.inr h0) hc
      · exact h0
    simpa using Nat.mod_lt _ this

/-- slotOf only depends on the page size and the slot count. -/
theorem slotOf_congr (c c' : PageCache V) (a : Nat)
    (h1 : c'.page_size = c.page_size)
    (h2 : c'.address.length = c.address.length) :
    slotOf c' a = slotOf c a := by
  rw [slotOf, slotOf, page_index_congr c c' a h1 h2]

/-- page_index agrees with slotOf whenever it is defined. -/
theorem page_index_eq_slotOf (c : PageCache V) (a : Nat)
    (h : page_index c a ≠ none) : page_index c a = some (slotOf c a) := by
  cases hp : page_index c a with
  | none => exact absurd hp h
  | some i => rw [slotOf, hp]; rfl

/-- Effect of the wlistcache success-callback pass on the slot table: it
succeeds, preserves the table dimensions, leaves untargeted slots
untouched, and installs the validated state into the slot of every entry
the DMA reported success for (pairwise-distinct slots). -/
theorem applyValidates_spec (vi : Validator V)
    (l : List ((Nat × Nat × Buf) × Bool)) (c : PageCache V)
    (hwf : c.page_refs.length = c.address.length
      ∧ c.address_once_validated.length = c.address.length)
    (hdef : ∀ p ∈ l, page_index c p.1.1 ≠ none)
    (hnd : (l.map fun p => page_index c p.1.1).Nodup) :
    ∃ c1 evs1, applyValidates vi l c = some (c1, evs1)
      ∧ c1.address.length = c.address.length
      ∧ c1.address_once_validated.length = c.address.length
      ∧ c1.page_refs.length = c.page_refs.length
      ∧ c1.page_size = c.page_size
      ∧ (∀ i, (∀ p ∈ l, p.2 = true → page_index c p.1.1 ≠ some i) →
          slotFields c1 i = slotFields c i)
      ∧ (∀ p ∈ l, p.2 = true →
          slotFields c1 (slotOf c p.1.1)
            = (p.1.1, INVALID, some p.1.2.2)) := by
  induction l generalizing c with
  | nil =>
    exact ⟨c, [], rfl, rfl, hwf.2, rfl, rfl, fun i _ => rfl, fun p hp =>
      absurd hp (by simp)⟩
  | cons p l' ih =>
    obtain ⟨e, f⟩ := p
    have hdef' : ∀ q ∈ l', page_index c q.1.1 ≠ none :=
      fun q hq => hdef q (List.mem_cons_of_mem _ hq)
    have hnd' : (l'.map fun q => page_index c q.1.1).Nodup :=
      (List.nodup_cons.mp hnd).2
    have hhead : (page_index c e.1) ∉ l'.map fun q => page_index c q.1.1 :=
      (List.nodup_cons.mp hnd).1
    cases f with
    | false =>
      obtain ⟨c1, evs1, happ, hl1, hl2, hl3, hps, hframe, hpos⟩ :=
        ih c hwf hdef' hnd'
      refine ⟨c1, evs1, ?_, hl1, hl2, hl3, hps, ?_, ?_⟩
      · simp [applyValidates, happ]
      · intro i hi
        exact hframe i fun q hq hqt =>
          hi q (List.mem_cons_of_mem _ hq) hqt
      · intro q hq hqt
        rcases List.mem_cons.mp hq with hq1 | hq2
        · rw [hq1] at hqt; cases hqt
        · exact hpos q hq2 hqt
    | true =>
      have hdefe : page_index c e.1 ≠ none := hdef (e, true) (by simp)
      have hpi : page_index c e.1 = some (slotOf c e.1) :=
        page_index_eq_slotOf c e.1 hdefe
      have hilt : slotOf c e.1 < c.address.length := slotOf_lt c e.1 hdefe
      have hval := validate_page_eq vi c e.1 e.2.2 (slotOf c e.1) hpi
      set cv : PageCache V :=
        { c with address := c.address.set (slotOf c e.1) e.1,
                 address_once_validated :=
                   c.address_once_validated.set (slotOf c e.1) INVALID,
                 validator := vi.validate_slot c.validator (slotOf c e.1),
                 page_refs :=
                   c.page_refs.set (slotOf c e.1) (some e.2.2) } with hcv
      have hpicv : ∀ a, page_index cv a = page_index c a := by
        intro a
        exact page_index_congr c cv a (by rw [hcv]) (by rw [hcv]; simp)
      have hwf' : cv.page_refs.length = cv.address.length
          ∧ cv.address_once_validated.length = cv.address.length := by
        rw [hcv]
        simp [hwf.1, hwf.2]
      have hdef'' : ∀ q ∈ l', page_index cv q.1.1 ≠ none := by
        intro q hq
        rw [hpicv]
        exact hdef' q hq
      have hnd'' : (l'.map fun q => page_index cv q.1.1).Nodup := by
        have : (l'.map fun q => page_index cv q.1.1)
            = l'.map fun q => page_index c q.1.1 :=
          List.map_congr_left fun q _ => hpicv q.1.1
        rw [this]
        exact hnd'
      obtain ⟨c1, evs1, happ, hl1, hl2, hl3, hps, hframe, hpos⟩ :=
        ih cv hwf' hdef'' hnd''
      have hl1c : c1.address.length = c.address.length := by
        rw [hl1, hcv]; simp
      have hl2c : c1.address_once_validated.length = c.address.length := by
        rw [hl2, hcv]; simp [hwf.2]
      have hl3c : c1.page_refs.length = c.page_refs.length := by
        rw [hl3, hcv]; simp
      have hpsc : c1.page_size = c.page_size := by
        rw [hps, hcv]
      refine ⟨c1, .validate e.1 :: evs1, ?_, hl1c, hl2c, hl3c, hpsc, ?_, ?_⟩
      · simp [applyValidates, hval, happ]
      · intro i hi
        have hie : page_index c e.1 ≠ some i :=
          hi (e, true) (by simp) rfl
        have hine : slotOf c e.1 ≠ i := by
          intro hcontra
          rw [hpi, hcontra] at hie
          exact hie rfl
        have hcvi : slotFields cv i = slotFields c i := by
          rw [slotFields, slotFields, hcv]
          simp only
          rw [getD_set_ne _ _ _ hine, getD_set_ne _ _ _ hine,
            getD_set_ne _ _ _ hine]
        rw [← hcvi]
        refine hframe i ?_
        intro q hq hqt
        rw [hpicv]
        exact hi q (List.mem_cons_of_mem _ hq) hqt
      · intro q hq hqt
        rcases List.mem_cons.mp hq with hq1 | hq2
        · have hqe : q = (e, true) := hq1
          rw [hqe]
          simp only
          have hfr : slotFields c1 (slotOf c e.1)
              = slotFields cv (slotOf c e.1) := by
            refine hframe (slotOf c e.1) ?_
            intro r hr hrt
            rw [hpicv]
            intro hcontra
            exact hhead (by rw [hpi, ← hcontra]; exact List.mem_map_of_mem _ hr)
          have hcvfields : slotFields cv (slotOf c e.1)
              = (e.1, INVALID, some e.2.2) := by
            rw [slotFields, hcv]
            simp only
            rw [getD_set_self _ _ _ _ hilt,
              getD_set_self _ _ _ _ (by rw [hwf.2]; exact hilt),
              getD_set_self _ _ _ _ (by rw [hwf.1]; exact hilt)]
          rw [hfr, hcvfields]
        · have hq2t := hpos q hq2 hqt
          have hsl : slotOf cv q.1.1 = slotOf c q.1.1 := by
            rw [slotOf, slotOf, hpicv]
          rw [← hsl]
          exact hq2t

/-- Effect of the wlistcache fallback pass on the slot table: it succeeds,
preserves the table dimensions, leaves untargeted slots untouched, resets
and refills the slot of every entry whose pending marker still equals its
address, and is a no-op on the slot of every other entry
(pairwise-distinct slots). -/
theorem applyCancels_spec (vi : Validator V)
    (l : List (Nat × Nat × Buf)) (c : PageCache V)
    (hwf : c.page_refs.length = c.address.length
      ∧ c.address_once_validated.length = c.address.length)
    (hdef : ∀ e ∈ l, page_index c e.1 ≠ none)
    (hnd : (l.map fun e => page_index c e.1).Nodup) :
    ∃ c2 evs2, applyCancels vi l c = some (c2, evs2)
      ∧ c2.address.length = c.address.length
      ∧ c2.address_once_validated.length = c.address.length
      ∧ c2.page_refs.length = c.page_refs.length
      ∧ c2.page_size = c.page_size
      ∧ (∀ i, (∀ e ∈ l, page_index c e.1 ≠ some i) →
          slotFields c2 i = slotFields c i)
      ∧ (∀ e ∈ l,
          (c.address_once_validated.getD (slotOf c e.1) INVALID = e.1 →
            slotFields c2 (slotOf c e.1) = (INVALID, INVALID, some e.2.2))
          ∧ (c.address_once_validated.getD (slotOf c e.1) INVALID ≠ e.1 →
            slotFields c2 (slotOf c e.1) = slotFields c (slotOf c e.1))) := by
  induction l generalizing c with
  | nil =>
    exact ⟨c, [], rfl, rfl, hwf.2, rfl, rfl, fun i _ => rfl, fun e he =>
      absurd he (by simp)⟩
  | cons e l' ih =>
    have hdef' : ∀ q ∈ l', page_index c q.1 ≠ none :=
      fun q hq => hdef q (List.mem_cons_of_mem _ hq)
    have hnd' : (l'.map fun q => page_index c q.1).Nodup :=
      (List.nodup_cons.mp hnd).2
    have hhead : (page_index c e.1) ∉ l'.map fun q => page_index c q.1 :=
      (List.nodup_cons.mp hnd).1
    have hdefe : page_index c e.1 ≠ none := hdef e (by simp)
    have hpi : page_index c e.1 = some (slotOf c e.1) :=
      page_index_eq_slotOf c e.1 hdefe
    have hilt : slotOf c e.1 < c.address.length := slotOf_lt c e.1 hdefe
    by_cases hg : c.address_once_validated.getD (slotOf c e.1) INVALID = e.1
    · have hcan := cancel_page_validation_pos vi c e.1 e.2.2 (slotOf c e.1)
        hpi hg
      set cc : PageCache V :=
        { c with validator := vi.invalidate_slot c.validator (slotOf c e.1),
                 address := c.address.set (slotOf c e.1) INVALID,
                 address_once_validated :=
                   c.address_once_validated.set (slotOf c e.1) INVALID,
                 page_refs :=
                   c.page_refs.set (slotOf c e.1) (some e.2.2) } with hcc
      have hpicc : ∀ a, page_index cc a = page_index c a := by
        intro a
        exact page_index_congr c cc a (by rw [hcc]) (by rw [hcc]; simp)
      have hwf' : cc.page_refs.length = cc.address.length
          ∧ cc.address_once_validated.length = cc.address.length := by
        rw [hcc]
        simp [hwf.1, hwf.2]
      have hdef'' : ∀ q ∈ l', page_index cc q.1 ≠ none := by
        intro q hq
        rw [hpicc]
        exact hdef' q hq
      have hnd'' : (l'.map fun q => page_index cc q.1).Nodup := by
        have : (l'.map fun q => page_index cc q.1)
            = l'.map fun q => page_index c q.1 :=
          List.map_congr_left fun q _ => hpicc q.1
        rw [this]
        exact hnd'
      obtain ⟨c2, evs2, happ, hl1, hl2, hl3, hps, hframe, hent⟩ :=
        ih cc hwf' hdef'' hnd''
      have hl1c : c2.address.length = c.address.length := by
        rw [hl1, hcc]; simp
      have hl2c : c2.address_once_validated.length = c.address.length := by
        rw [hl2, hcc]; simp [hwf.2]
      have hl3c : c2.page_refs.length = c.page_refs.length := by
        rw [hl3, hcc]; simp
      have hpsc : c2.page_size = c.page_size := by
        rw [hps, hcc]
      refine ⟨c2, .cancel e.1 :: evs2, ?_, hl1c, hl2c, hl3c, hpsc, ?_, ?_⟩
      · simp [applyCancels, hcan, happ]
      · intro i hi
        have hie : page_index c e.1 ≠ some i := hi e (by simp)
        have hine : slotOf c e.1 ≠ i := by
          intro hcontra
          rw [hpi, hcontra] at hie
          exact hie rfl
        have hcci : slotFields cc i = slotFields c i := by
          rw [slotFields, slotFields, hcc]
          simp only
          rw [getD_set_ne _ _ _ hine, getD_set_ne _ _ _ hine,
            getD_set_ne _ _ _ hine]
        rw [← hcci]
        refine hframe i ?_
        intro q hq
        rw [hpicc]
        exact hi q (List.mem_cons_of_mem _ hq)
      · intro q hq
        rcases List.mem_cons.mp hq with hq1 | hq2
        · subst hq1
          have hfr : slotFields c2 (slotOf c q.1)
              = slotFields cc (slotOf c q.1) := by
            refine hframe (slotOf c q.1) ?_
            intro r hr
            rw [hpicc]
            intro hcontra
            exact hhead (by rw [hpi, ← hcontra]; exact List.mem_map_of_mem _ hr)
          have hccfields : slotFields cc (slotOf c q.1)
              = (INVALID, INVALID, some q.2.2) := by
            rw [slotFields, hcc]
            simp only
            rw [getD_set_self _ _ _ _ hilt,
              getD_set_self _ _ _ _ (by rw [hwf.2]; exact hilt),
              getD_set_self _ _ _ _ (by rw [hwf.1]; exact hilt)]
          constructor
          · intro _
            rw [hfr, hccfields]
          · intro hng
            exact absurd hg hng
        · have hsl : slotOf cc q.1 = slotOf c q.1 := by
            rw [slotOf, slotOf, hpicc]
          have hiq : slotOf c q.1 ≠ slotOf c e.1 := by
            intro hcontra
            have hqd : page_index c q.1 ≠ none := hdef' q hq2
            have hqpi := page_index_eq_slotOf c q.1 hqd
            exact hhead (by
              rw [hpi, ← hcontra, ← hqpi]
              exact List.mem_map_of_mem _ hq2)
          have haov : cc.address_once_validated.getD (slotOf c q.1) INVALID
              = c.address_once_validated.getD (slotOf c q.1) INVALID := by
            rw [hcc]
            simp only
            rw [getD_set_ne _ _ _ (fun hcontra => hiq hcontra.symm)]
          have hccq : slotFields cc (slotOf c q.1)
              = slotFields c (slotOf c q.1) := by
            rw [slotFields, slotFields, hcc]
            simp only
            rw [getD_set_ne _ _ _ (fun hcontra => hiq hcontra.symm),
              getD_set_ne _ _ _ (fun hcontra => hiq hcontra.symm),
              getD_set_ne _ _ _ (fun hcontra => hiq hcontra.symm)]
          obtain ⟨hq2a, hq2b⟩ := hent q hq2
          rw [hsl, haov] at hq2a hq2b
          constructor
          · intro hgq
            exact hq2a hgq
          · intro hgq
            rw [hq2b hgq, hccq]
    · have hcan := cancel_page_validation_neg vi c e.1 e.2.2 (slotOf c e.1)
        hpi hg
      obtain ⟨c2, evs2, happ, hl1, hl2, hl3, hps, hframe, hent⟩ :=
        ih c hwf hdef' hnd'
      refine ⟨c2, .cancel e.1 :: evs2, ?_, hl1, hl2, hl3, hps, ?_, ?_⟩
      · simp [applyCancels, hcan, happ]
      · intro i hi
        exact hframe i fun q hq => hi q (List.mem_cons_of_mem _ hq)
      · intro q hq
        rcases List.mem_cons.mp hq with hq1 | hq2
        · subst hq1
          constructor
          · intro hgq
            exact absurd hgq hg
          · intro _
            refine hframe (slotOf c q.1) ?_
            intro r hr
            intro hcontra
            exact hhead (by rw [hpi, ← hcontra]; exact List.mem_map_of_mem _ hr)
        · exact hent q hq2

/-- C2: in a wlistcache drain where the backing DMA returns success,
every entry the DMA did not report success for has the step-3
cancel_page_validation applied to it afterwards, so its buffer is back
resident in its slot and both of its slot address fields are cleared to
INVALID, while every validated entry keeps its validated state (address
field set to the entry address, pending marker cleared, buffer resident):
the cancel call is a no-op for it.  The hypotheses are the facts the
engine establishes when it builds the batch: every entry has a defined,
pairwise-distinct slot, every slot is pending at the entry address, and
no entry address is the INVALID sentinel. -/
theorem c2_wlistcache_drain (vi : Validator V) (dma : Dma)
    (s : EngineState V) (flags : List Bool)
    (hwf : s.cache.page_refs.length = s.cache.address.length
      ∧ s.cache.address_once_validated.length = s.cache.address.length)
    (hne : s.wlistcache ≠ [])
    (hdma : dma (s.wlistcache.map fun e => (e.1, e.1, e.2.2.length))
      = .ok flags)
    (hlen : flags.length = s.wlistcache.length)
    (hdef : ∀ e ∈ s.wlistcache, page_index s.cache e.1 ≠ none)
    (hnd : (s.wlistcache.map fun e => page_index s.cache e.1).Nodup)
    (hpend : ∀ e ∈ s.wlistcache,
      s.cache.address_once_validated.getD (slotOf s.cache e.1) INVALID = e.1
      ∧ e.1 ≠ INVALID) :
    ∃ c' evs', drainWlistcache vi dma s
        = some ({ s with cache := c', wlistcache := [], evs := evs' }, true)
      ∧ ∀ p ∈ s.wlistcache.zip flags,
          (p.2 = true →
            slotFields c' (slotOf s.cache p.1.1)
              = (p.1.1, INVALID, some p.1.2.2))
          ∧ (p.2 = false →
            slotFields c' (slotOf s.cache p.1.1)
              = (INVALID, INVALID, some p.1.2.2)) := by
  have hzdef : ∀ p ∈ s.wlistcache.zip flags,
      page_index s.cache p.1.1 ≠ none :=
    fun p hp => hdef p.1 (List.of_mem_zip hp).1
  have hmapz : ((s.wlistcache.zip flags).map
        fun p => page_index s.cache p.1.1)
      = s.wlistcache.map fun e => page_index s.cache e.1 := by
    have h1 : (s.wlistcache.zip flags).map Prod.fst = s.wlistcache :=
      List.map_fst_zip s.wlistcache flags (by omega)
    have h2 : ((s.wlistcache.zip flags).map
          fun p => page_index s.cache p.1.1)
        = ((s.wlistcache.zip flags).map Prod.fst).map
            fun e => page_index s.cache e.1 := by
      rw [List.map_map]
      rfl
    rw [h2, h1]
  have hznd : ((s.wlistcache.zip flags).map
      fun p => page_index s.cache p.1.1).Nodup := by
    rw [hmapz]
    exact hnd
  obtain ⟨c1, evs1, happ1, hv1, hv2, hv3, hv4, hframe1, hpos1⟩ :=
    applyValidates_spec vi (s.wlistcache.zip flags) s.cache hwf hzdef hznd
  have hpic1 : ∀ a, page_index c1 a = page_index s.cache a :=
    fun a => page_index_congr s.cache c1 a hv4 hv1
  have hwf1 : c1.page_refs.length = c1.address.length
      ∧ c1.address_once_validated.length = c1.address.length := by
    constructor
    · rw [hv3, hv1, hwf.1]
    · rw [hv2, hv1]
  have hdef1 : ∀ e ∈ s.wlistcache, page_index c1 e.1 ≠ none := by
    intro e he
    rw [hpic1]
    exact hdef e he
  have hnd1 : (s.wlistcache.map fun e => page_index c1 e.1).Nodup := by
    have : (s.wlistcache.map fun e => page_index c1 e.1)
        = s.wlistcache.map fun e => page_index s.cache e.1 :=
      List.map_congr_left fun e _ => hpic1 e.1
    rw [this]
    exact hnd
  obtain ⟨c2, evs2, happ2, hc1, hc2l, hc3, hc4, hframe2, hent2⟩ :=
    applyCancels_spec vi s.wlistcache c1 hwf1 hdef1 hnd1
  refine ⟨c2, (s.evs ++ [Ev.dmaC (s.wlistcache.map fun e => e.1)])
    ++ evs1 ++ evs2, ?_, ?_⟩
  · rw [drainWlistcache, if_neg (by simpa using hne)]
    simp only [hdma, happ1, happ2]
  · intro p hp
    have he1 : p.1 ∈ s.wlistcache := (List.of_mem_zip hp).1
    have hin : page_index s.cache p.1.1 ≠ none := hdef p.1 he1
    have hpi : page_index s.cache p.1.1 = some (slotOf s.cache p.1.1) :=
      page_index_eq_slotOf s.cache p.1.1 hin
    have hsl1 : slotOf c1 p.1.1 = slotOf s.cache p.1.1 :=
      slotOf_congr s.cache c1 p.1.1 hv4 hv1
    obtain ⟨ha2t, ha2f⟩ := hent2 p.1 he1
    rw [hsl1] at ha2t ha2f
    constructor
    · intro hpt
      have hppos := hpos1 p hp hpt
      have haovInv : c1.address_once_validated.getD
          (slotOf s.cache p.1.1) INVALID = INVALID :=
        congrArg (fun t => t.2.1) hppos
      have hguard : c1.address_once_validated.getD
          (slotOf s.cache p.1.1) INVALID ≠ p.1.1 := by
        rw [haovInv]
        exact fun hcontra => (hpend p.1 he1).2 hcontra.symm
      rw [ha2f hguard]
      exact hppos
    · intro hpf
      have hfr1 : slotFields c1 (slotOf s.cache p.1.1)
          = slotFields s.cache (slotOf s.cache p.1.1) := by
        refine hframe1 (slotOf s.cache p.1.1) ?_
        intro q hq hqt hcontra
        have hqeq : page_index s.cache q.1.1 = page_index s.cache p.1.1 := by
          rw [hcontra, hpi]
        have hqp : q = p :=
          List.inj_on_of_nodup_map hznd hq hp hqeq
        rw [hqp] at hqt
        rw [hpf] at hqt
        cases hqt
      have haov1 : c1.address_once_validated.getD
          (slotOf s.cache p.1.1) INVALID = p.1.1 := by
        have := congrArg (fun t => t.2.1) hfr1
        simp only [slotFields] at this
        rw [this]
        exact (hpend p.1 he1).1
      rw [ha2t haov1]
  
/-- Two-slot cache used by the C2 witness: both slots pending (at pages 0
and 16) with their buffers on loan. -/
def c2cache : PageCache (List Bool) :=
  ⟨[INVALID, INVALID], [none, none], [0, 16], 16, 8, [false, false]⟩

/-- Engine state for the C2 witness: two wlistcache entries holding the
loaned buffers of the two pending slots. -/
def c2state : EngineState (List Bool) :=
  ⟨c2cache, [],
    [(0, 0, List.replicate 16 1), (16, 16, List.replicate 16 2)], [], []⟩

/-- DMA for the C2 witness: validates the first entry only. -/
def c2dma : Dma := fun _ => .ok [true, false]

/-- C2 witness: concrete two-entry drain where the DMA validates entry 0
and silently drops entry 1. -/
theorem c2_wlistcache_drain_witness :
    ∃ c' evs', drainWlistcache boolValidator c2dma c2state
        = some ({ c2state with cache := c', wlistcache := [], evs := evs' },
            true)
      ∧ ∀ p ∈ c2state.wlistcache.zip [true, false],
          (p.2 = true →
            slotFields c' (slotOf c2state.cache p.1.1)
              = (p.1.1, INVALID, some p.1.2.2))
          ∧ (p.2 = false →
            slotFields c' (slotOf c2state.cache p.1.1)
              = (INVALID, INVALID, some p.1.2.2)) :=
  c2_wlistcache_drain boolValidator c2dma c2state [true, false]
    (by decide) (by decide) rfl (by decide) (by decide) (by decide)
    (by decide)

/-- Wlist-drain callback events are wlist-phase events. -/
theorem wCallbackEvs_phase (reqs : List Req) (flags : List Bool) :
    ∀ e ∈ wCallbackEvs reqs flags, e.isWPhase = true := by
  intro e he
  rw [wCallbackEvs] at he
  obtain ⟨p, hp, hpe⟩ := List.mem_map.mp he
  cases hf : p.2 <;> rw [hf] at hpe <;> rw [← hpe] <;> rfl

/-- The wlist drain only appends wlist-phase events and leaves clist
untouched. -/
theorem drainWlist_evs (dma : Dma) (s s1 : EngineState V) (ok1 : Bool)
    (h : drainWlist dma s = some (s1, ok1)) :
    ∃ a, s1.evs = s.evs ++ a ∧ (∀ e ∈ a, e.isWPhase = true)
      ∧ s1.clist = s.clist := by
  rw [drainWlist] at h
  by_cases he : s.wlist.isEmpty = true
  · rw [if_pos he] at h
    injection h with h'
    injection h' with hs hok
    subst hs
    exact ⟨[], by simp, by simp, rfl⟩
  · rw [if_neg he] at h
    cases hdma : dma (s.wlist.map fun r => (r.pa.address, r.meta, r.len)) with
    | error u =>
      simp only [hdma] at h
      injection h with h'
      injection h' with hs hok
      subst hs
      refine ⟨[Ev.dmaW (s.wlist.map fun r => (r.pa.address, r.meta, r.len))],
        by simp, ?_, rfl⟩
      intro e he2
      rcases List.mem_singleton.mp he2 with rfl
      rfl
    | ok flags =>
      simp only [hdma] at h
      injection h with h'
      injection h' with hs hok
      subst hs
      refine ⟨Ev.dmaW (s.wlist.map fun r => (r.pa.address, r.meta, r.len))
          :: wCallbackEvs s.wlist flags, by simp, ?_, rfl⟩
      intro e he2
      rcases List.mem_cons.mp he2 with rfl | he3
      · rfl
      · exact wCallbackEvs_phase s.wlist flags e he3

/-- The success-callback pass of the wlistcache drain emits only validate
events. -/
theorem applyValidates_evs (vi : Validator V)
    (l : List ((Nat × Nat × Buf) × Bool)) (c : PageCache V)
    (c1 : PageCache V) (evs1 : List Ev)
    (h : applyValidates vi l c = some (c1, evs1)) :
    ∀ e ∈ evs1, e.isCPhase = true := by
  induction l generalizing c c1 evs1 with
  | nil =>
    rw [applyValidates] at h
    injection h with h'
    injection h' with hc he
    subst he
    simp
  | cons p l' ih =>
    obtain ⟨e0, f⟩ := p
    cases f with
    | false =>
      rw [applyValidates] at h
      simp only [Bool.false_eq_true, if_false] at h
      exact ih c c1 evs1 h
    | true =>
      rw [applyValidates] at h
      simp only [if_true] at h
      cases hv : validate_page vi c e0.1 e0.2.2 with
      | none => simp [hv] at h
      | some cv =>
        simp only [hv] at h
        cases happ : applyValidates vi l' cv with
        | none => simp [happ] at h
        | some pr =>
          obtain ⟨c2, evs'⟩ := pr
          simp only [happ, Option.map_some'] at h
          injection h with h'
          injection h' with hc he
          subst he
          intro e he2
          rcases List.mem_cons.mp he2 with rfl | he3
          · rfl
          · exact ih cv c2 evs' happ e he3

/-- The fallback pass of the wlistcache drain emits only cancel events. -/
theorem applyCancels_evs (vi : Validator V) (l : List (Nat × Nat × Buf))
    (c : PageCache V) (c2 : PageCache V) (evs2 : List Ev)
    (h : applyCancels vi l c = some (c2, evs2)) :
    ∀ e ∈ evs2, e.isCPhase = true := by
  induction l generalizing c c2 evs2 with
  | nil =>
    rw [applyCancels] at h
    injection h with h'
    injection h' with hc he
    subst he
    simp
  | cons e0 l' ih =>
    rw [applyCancels] at h
    cases hcan : cancel_page_validation vi c e0.1 e0.2.2 with
    | none => simp [hcan] at h
    | some cc =>
      simp only [hcan] at h
      cases happ : applyCancels vi l' cc with
      | none => simp [happ] at h
      | some pr =>
        obtain ⟨c3, evs'⟩ := pr
        simp only [happ, Option.map_some'] at h
        injection h with h'
        injection h' with hc he
        subst he
        intro e he2
        rcases List.mem_cons.mp he2 with rfl | he3
        · rfl
        · exact ih cc c3 evs' happ e he3

/-- The wlistcache drain only appends wlistcache-phase events and leaves
clist untouched. -/
theorem drainWlistcache_evs (vi : Validator V) (dma : Dma)
    (s s2 : EngineState V) (ok2 : Bool)
    (h : drainWlistcache vi dma s = some (s2, ok2)) :
    ∃ b, s2.evs = s.evs ++ b ∧ (∀ e ∈ b, e.isCPhase = true)
      ∧ s2.clist = s.clist := by
  rw [drainWlistcache] at h
  by_cases he : s.wlistcache.isEmpty = true
  · rw [if_pos he] at h
    injection h with h'
    injection h' with hs hok
    subst hs
    exact ⟨[], by simp, by simp, rfl⟩
  · rw [if_neg he] at h
    cases hdma : dma (s.wlistcache.map fun e => (e.1, e.1, e.2.2.length)) with
    | error u =>
      simp only [hdma] at h
      injection h with h'
      injection h' with hs hok
      subst hs
      refine ⟨[Ev.dmaC (s.wlistcache.map fun e => e.1)], by simp, ?_, rfl⟩
      intro e he2
      rcases List.mem_singleton.mp he2 with rfl
      rfl
    | ok flags =>
      simp only [hdma] at h
      cases happ1 : applyValidates vi (s.wlistcache.zip flags) s.cache with
      | none => simp [happ1] at h
      | some pr1 =>
        obtain ⟨c1, evs1⟩ := pr1
        simp only [happ1] at h
        cases happ2 : applyCancels vi s.wlistcache c1 with
        | none => simp [happ2] at h
        | some pr2 =>
          obtain ⟨c2, evs2⟩ := pr2
          simp only [happ2] at h
          injection h with h'
          injection h' with hs hok
          subst hs
          refine ⟨Ev.dmaC (s.wlistcache.map fun e => e.1) :: (evs1 ++ evs2),
            by simp, ?_, rfl⟩
          intro e he2
          rcases List.mem_cons.mp he2 with rfl | he3
          · rfl
          · rcases List.mem_append.mp he3 with he4 | he4
            · exact applyValidates_evs vi (s.wlistcache.zip flags) s.cache
                c1 evs1 happ1 e he4
            · exact applyCancels_evs vi s.wlistcache c1 c2 evs2 happ2 e he4

/-- One clist completion appends exactly one clist-phase event and leaves
clist untouched. -/
theorem clistStep_evs (vi : Validator V) (r : Req) (s s' : EngineState V)
    (h : clistStep vi r s = some s') :
    ∃ ev, s'.evs = s.evs ++ [ev] ∧ ev.isClPhase = true
      ∧ s'.clist = s.clist := by
  rw [clistStep] at h
  cases hcp : cached_page_mut vi s.cache r.pa.address false with
  | none => rw [hcp] at h; cases h
  | some pr =>
    obtain ⟨entry, c1⟩ := pr
    simp only [hcp] at h
    cases hv : entry.validity with
    | Valid buf =>
      simp only [hv] at h
      cases hpp : put_page c1 entry.address buf with
      | none => simp [hpp] at h
      | some c2 =>
        simp only [hpp] at h
        injection h with h'
        exact ⟨Ev.clOut r.meta ((buf.drop (r.pa.address
            - as_page_aligned entry.address c1.page_size)).take r.len),
          by rw [← h'], rfl, by rw [← h']⟩
    | Invalid =>
      simp only [hv] at h
      injection h with h'
      exact ⟨Ev.clFail r.meta, by rw [← h'], rfl, by rw [← h']⟩
    | Validatable buf =>
      simp only [hv] at h
      injection h with h'
      exact ⟨Ev.clFail r.meta, by rw [← h'], rfl, by rw [← h']⟩
    | ToBeValidated =>
      simp only [hv] at h
      injection h with h'
      exact ⟨Ev.clFail r.meta, by rw [← h'], rfl, by rw [← h']⟩

/-- The clist completion loop appends one clist-phase event per entry. -/
theorem drainClistGo_evs (vi : Validator V) (l : List Req)
    (s s3 : EngineState V) (h : drainClistGo vi l s = some s3) :
    ∃ cc, s3.evs = s.evs ++ cc ∧ (∀ e ∈ cc, e.isClPhase = true)
      ∧ cc.length = l.length ∧ s3.clist = s.clist := by
  induction l generalizing s with
  | nil =>
    rw [drainClistGo] at h
    injection h with h'
    subst h'
    exact ⟨[], by simp, by simp, rfl, rfl⟩
  | cons r l' ih =>
    rw [drainClistGo] at h
    cases hcs : clistStep vi r s with
    | none => rw [hcs] at h; cases h
    | some s' =>
      rw [hcs] at h
      simp only [Option.some_bind] at h
      obtain ⟨ev, hev, hphase, hcl⟩ := clistStep_evs vi r s s' hcs
      obtain ⟨cc', hev', hphase', hlen', hcl'⟩ := ih s' h
      refine ⟨ev :: cc', ?_, ?_, by simp [hlen'], by rw [hcl', hcl]⟩
      · rw [hev', hev]
        simp
      · intro e he2
        rcases List.mem_cons.mp he2 with rfl | he3
        · exact hphase
        · exact hphase' e he3

/-- The clist drain appends one clist-phase event per clist entry and
empties clist. -/
theorem drainClist_evs (vi : Validator V) (s s3 : EngineState V)
    (h : drainClist vi s = some s3) :
    ∃ cc, s3.evs = s.evs ++ cc ∧ (∀ e ∈ cc, e.isClPhase = true)
      ∧ cc.length = s.clist.length ∧ s3.clist = [] := by
  rw [drainClist] at h
  obtain ⟨cc, hev, hphase, hlen, hcl⟩ :=
    drainClistGo_evs vi s.clist.reverse { s with clist := [] } s3 h
  exact ⟨cc, hev, hphase, by rw [hlen]; simp, hcl⟩

/-- The batch-drain condition matches the lookahead form of the loop:
drain when the next input is exhausted or a work list reached 64. -/
theorem batchCond_iff (s : EngineState V) (rest : List Req) :
    batchCond s rest.head? = true
      ↔ (rest.isEmpty = true ∨ 64 ≤ s.wlist.length
          ∨ 64 ≤ s.wlistcache.length ∨ 64 ≤ s.clist.length) := by
  cases rest <;> simp [batchCond, or_assoc]

/-- C7: the loop drains the work lists exactly when the input iterator is
exhausted or one of wlist, wlistcache, clist has reached 64 entries (the
first conjunct factors the loop body through batchCond and drainBatch),
and each drain proceeds in order: first the wlist DMA call with the
caller callbacks, then the wlistcache DMA call with the validate callback
and its cancel fallback, then the clist completions, one per clist entry
(the second conjunct decomposes the drain trace into a wlist-phase block,
then a wlistcache-phase block, then a clist-completion block). -/
theorem c7_batch_drain_condition_and_order (vi : Validator V) (dma : Dma) :
    (∀ r rest (s : EngineState V),
      readLoop vi dma r rest s = (processReq vi r s).bind fun s' =>
        if batchCond s' rest.head? = true then
          (drainBatch vi dma s').bind fun p =>
            if p.2 = true then
              match rest with
              | [] => some (p.1, true)
              | r' :: rest' => readLoop vi dma r' rest' p.1
            else some (p.1, false)
        else
          match rest with
          | [] => some (s', true)
          | r' :: rest' => readLoop vi dma r' rest' s')
    ∧ (∀ (s s' : EngineState V) ok, drainBatch vi dma s = some (s', ok) →
        ∃ a b cc, s'.evs = s.evs ++ [Ev.drain] ++ a ++ b ++ cc
          ∧ (∀ e ∈ a, e.isWPhase = true)
          ∧ (∀ e ∈ b, e.isCPhase = true)
          ∧ (∀ e ∈ cc, e.isClPhase = true)
          ∧ (ok = true → cc.length = s.clist.length ∧ s'.clist = [])) := by
  constructor
  · intro r rest s
    cases hp : processReq vi r s with
    | none => rw [readLoop]; simp [hp]
    | some s' =>
      rw [readLoop]
      simp only [hp, Option.some_bind]
      by_cases hc : rest.isEmpty = true ∨ 64 ≤ s'.wlist.length
          ∨ 64 ≤ s'.wlistcache.length ∨ 64 ≤ s'.clist.length
      · rw [if_pos hc, if_pos ((batchCond_iff s' rest).mpr hc)]
        cases hd : drainBatch vi dma s' with
        | none => rfl
        | some p =>
          obtain ⟨s'', ok⟩ := p
          cases ok with
          | false => simp
          | true => simp
      · rw [if_neg hc, if_neg (fun hbc => hc ((batchCond_iff s' rest).mp hbc))]
  · intro s s' ok hd
    rw [drainBatch] at hd
    cases hw : drainWlist dma { s with evs := s.evs ++ [Ev.drain] } with
    | none => simp [hw] at hd
    | some pr =>
      obtain ⟨s1, ok1⟩ := pr
      simp only [hw] at hd
      obtain ⟨a, hev1, hph1, hcl1⟩ :=
        drainWlist_evs dma { s with evs := s.evs ++ [Ev.drain] } s1 ok1 hw
      cases ok1 with
      | false =>
        injection hd with hd'
        injection hd' with hs hok
        subst hs
        subst hok
        refine ⟨a, [], [], ?_, hph1, by simp, by simp, by simp⟩
        rw [hev1]
        simp
      | true =>
        cases hwc : drainWlistcache vi dma s1 with
        | none => simp [hwc] at hd
        | some pr2 =>
          obtain ⟨s2, ok2⟩ := pr2
          simp only [hwc] at hd
          obtain ⟨b, hev2, hph2, hcl2⟩ :=
            drainWlistcache_evs vi dma s1 s2 ok2 hwc
          cases ok2 with
          | false =>
            injection hd with hd'
            injection hd' with hs hok
            subst hs
            subst hok
            refine ⟨a, b, [], ?_, hph1, hph2, by simp, by simp⟩
            rw [hev2, hev1]
            simp
          | true =>
            cases hcl : drainClist vi s2 with
            | none => simp [hcl] at hd
            | some s3 =>
              simp only [hcl, Option.map_some'] at hd
              injection hd with hd'
              injection hd' with hs hok
              subst hs
              subst hok
              obtain ⟨cc, hev3, hph3, hlen3, hcl3⟩ :=
                drainClist_evs vi s2 s3 hcl
              refine ⟨a, b, cc, ?_, hph1, hph2, hph3, ?_⟩
              · rw [hev3, hev2, hev1]
              · intro _
                refine ⟨?_, hcl3⟩
                rw [hlen3, hcl2, hcl1]

/-- C7 witness: concrete instantiations of both conjuncts (an empty-list
state whose drain trivially drains in order). -/
theorem c7_batch_drain_witness :
    (readLoop boolValidator c2dma ⟨⟨0, 8, 4096⟩, 100, 4⟩ []
        ⟨wCache INVALID INVALID none false, [], [], [], []⟩
      = (processReq boolValidator ⟨⟨0, 8, 4096⟩, 100, 4⟩
          ⟨wCache INVALID INVALID none false, [], [], [], []⟩).bind fun s' =>
        if batchCond s' ([] : List Req).head? = true then
          (drainBatch boolValidator c2dma s').bind fun p =>
            if p.2 = true then
              match ([] : List Req) with
              | [] => some (p.1, true)
              | r' :: rest' => readLoop boolValidator c2dma r' rest' p.1
            else some (p.1, false)
        else
          match ([] : List Req) with
          | [] => some (s', true)
          | r' :: rest' => readLoop boolValidator c2dma r' rest' s')
    ∧ (∃ a b cc,
        ({ (⟨wCache INVALID INVALID none false, [], [], [], []⟩ :
              EngineState (List Bool)) with
            evs := [Ev.drain] } : EngineState (List Bool)).evs
          = (⟨wCache INVALID INVALID none false, [], [], [], []⟩ :
              EngineState (List Bool)).evs ++ [Ev.drain] ++ a ++ b ++ cc
        ∧ (∀ e ∈ a, e.isWPhase = true)
        ∧ (∀ e ∈ b, e.isCPhase = true)
        ∧ (∀ e ∈ cc, e.isClPhase = true)
        ∧ (true = true → cc.length
              = (⟨wCache INVALID INVALID none false, [], [], [], []⟩ :
                  EngineState (List Bool)).clist.length
            ∧ ({ (⟨wCache INVALID INVALID none false, [], [], [], []⟩ :
                  EngineState (List Bool)) with
                evs := [Ev.drain] } : EngineState (List Bool)).clist = [])) :=
  ⟨(c7_batch_drain_condition_and_order boolValidator c2dma).1
      ⟨⟨0, 8, 4096⟩, 100, 4⟩ []
      ⟨wCache INVALID INVALID none false, [], [], [], []⟩,
    (c7_batch_drain_condition_and_order boolValidator c2dma).2
      ⟨wCache INVALID INVALID none false, [], [], [], []⟩
      { (⟨wCache INVALID INVALID none false, [], [], [], []⟩ :
          EngineState (List Bool)) with evs := [Ev.drain] }
      true rfl⟩

end Memflow
